import Mathlib

/-!
Shallow embedding of the four versions of `WindRenderer` from the
`eink_weather` repository (files `src/backup/*/wind_renderer.py`), together
with proofs about them.

Conventions of the embedding:
* Numeric weather values (Python floats) are modelled as exact rationals
  (`Rat`); no arithmetic is performed on them by the renderers beyond
  formatting, so this is faithful for every claim below.
* Python strings are Lean `String`s; the line-wrapping routine operates on
  the underlying `List Char`, matching Python's code-point semantics of
  `len`, slicing and `split`.
* The collaborators (icon/description manager, font registry, the drawing
  backend's text measurement, and the base class's fallback renderer) are
  out of scope per the specification; they are modelled as an environment
  (`Env`) of injected functions.  A collaborator call that may raise a
  Python exception is `Except`-valued; `Except.error` models a raised
  exception propagating into `render`'s body.
* Draw calls (rectangle outline, text, icon blit) are modelled as an emitted
  event list (`List Ev`), in source order.  On an exception the events
  emitted before the raise are kept, as in Python.
* The mutable dictionary arguments `weather_data` / `context_data` are
  state-passed: `render` returns their final values alongside its boolean
  result and its draw calls.
-/

/-- Fonts are opaque handles supplied by the font registry. -/
abbrev Font := Nat

/-- Icons are opaque handles supplied by the icon manager. -/
abbrev Icon := Nat

/-- Exceptions are opaque tokens. -/
abbrev Exc := Nat

/-- A weather-data / context-data mapping: keys to numeric values. -/
abbrev WMap := String → Option Rat

/-- A draw call issued on the drawing surface. -/
inductive Ev where
  | rect (x1 y1 x2 y2 : Int) (outline : Int) (lw : Int)
  | text (px py : Int) (s : String) (font : Option Font) (fill : Int)
  | icon (ic : Icon) (px py : Int)
  deriving DecidableEq, Repr

/-- The outcome of one call to `render`: the boolean result, the draw calls
issued, and the final values of the two mapping arguments. -/
structure RunResult where
  result : Bool
  drawn : List Ev
  weather : WMap
  context : WMap

/-- Python `str.isspace` for the ASCII whitespace characters relevant here. -/
def isPySpace (c : Char) : Bool :=
  c == ' ' || c == '\t' || c == '\n' || c == '\r' ||
  c == Char.ofNat 11 || c == Char.ofNat 12

/-- Accumulator-based worker for Python `str.split()` (split on whitespace
runs, discarding empty pieces). -/
def splitWsAux : List Char → List Char → List (List Char)
  | [], acc => if acc.isEmpty then [] else [acc.reverse]
  | c :: cs, acc =>
    if isPySpace c then
      if acc.isEmpty then splitWsAux cs [] else acc.reverse :: splitWsAux cs []
    else splitWsAux cs (c :: acc)

/-- Python `text.split()` on the underlying character list. -/
def splitWs (l : List Char) : List (List Char) := splitWsAux l []

/-- Python `str.lstrip()`. -/
def ltrim (l : List Char) : List Char := l.dropWhile isPySpace

/-- Python `str.rstrip()`. -/
def rtrim (l : List Char) : List Char := (l.reverse.dropWhile isPySpace).reverse

/-- Python `str.strip()`. -/
def pstrip (l : List Char) : List Char := rtrim (ltrim l)

/-- Python `" ".join(ws)`. -/
def joinSp : List (List Char) → List Char
  | [] => []
  | [w] => w
  | w :: ws => w ++ ' ' :: joinSp ws

/-- Python `str.upper()` (ASCII, as used on cardinal codes). -/
def pupper (s : String) : String := s.map Char.toUpper

/-- Python `str.lower()` (ASCII, as used on cardinal codes). -/
def plower (s : String) : String := s.map Char.toLower

/-- The whitespace-normalized form of a text: its words joined by single
spaces. -/
def pnormalize (s : String) : String := String.mk (joinSp (splitWs s.data))

/-- Python `f"{v:.1f}"` read over exact rationals: one decimal digit, round
half to even, computed by integer arithmetic on the numerator and
denominator (`q * 10 = n10 / d`; `f = ⌊n10 / d⌋`; `r` its remainder). -/
def fmt1 (q : Rat) : String :=
  let n10 : Int := q.num * 10
  let d : Int := (q.den : Int)
  let f : Int := Int.fdiv n10 d
  let r : Int := n10 - f * d
  let n : Int :=
    if 2 * r < d then f
    else if d < 2 * r then f + 1
    else if f % 2 = 0 then f else f + 1
  let sgn : String := if n < 0 then "-" else ""
  let m : Nat := n.natAbs
  sgn ++ toString (m / 10) ++ "." ++ toString (m % 10)

/-- The wind-speed display string `f"{wind_speed:.1f} m/s"` built directly
by every version of `render` (not via the icon manager). -/
def msTextOf (q : Rat) : String := fmt1 q ++ " m/s"

/-- The collaborators injected into the renderer.  Per the specification the
drawing backend, icon/font manager and base class are out of scope; calls
into them that can raise are `Except`-valued.

`fallback` is modelled from the spec: `ModuleRenderer.render_fallback_content`
(base class, not under `src/`) draws placeholder content for the given region
and returns a boolean; we model it as returning its boolean result and the
draw calls it issues. -/
structure Env where
  fonts : String → Option Font
  windDesc : Rat → Except Exc String
  windDirInfo : Rat → Except Exc (String × String)
  systemIcon : String → Int × Int → Except Exc (Option Icon)
  windIcon : String → Int × Int → Except Exc (Option Icon)
  textbbox : String → Option Font → Except Exc (Int × Int × Int × Int)
  textBounds : String → Option Font → Except Exc (Int × Int)
  fallback : Int → Int → Int → Int → String → Bool × List Ev

/-- Modelled from the spec: `ModuleRenderer.safe_get_value` (base class, not
under `src/`) — safe value extraction from the mapping with a default and
float conversion; on the numeric model values the conversion is the
identity, and a missing key yields the default. -/
def safe_get_value (data : WMap) (key : String) (dflt : Rat) : Rat :=
  (data key).getD dflt

/-- Python `self.fonts.get(k1, self.fonts.get(k2))`. -/
def fontGet2 (env : Env) (k1 k2 : String) : Option Font :=
  match env.fonts k1 with
  | some f => some f
  | none => env.fonts k2

/-- The clean-final version's helper `text_width(text, font)`:
`bbox = draw.textbbox((0,0), text, font); bbox[2] - bbox[0]`. -/
def text_width (env : Env) (t : String) (f : Option Font) : Except Exc Int :=
  (env.textbbox t f).map fun bb => bb.2.2.1 - bb.1

/-- The clean-final version's helper `text_height(text, font)`:
`bbox = draw.textbbox((0,0), text, font); bbox[3] - bbox[1]`. -/
def text_height (env : Env) (t : String) (f : Option Font) : Except Exc Int :=
  (env.textbbox t f).map fun bb => bb.2.2.2 - bb.2.1

/-- Worker for the ellipsis-shrinking loop inside `wrap2_ellips`, structural
on a step counter `n`.  `n` starts at `rest.length` (see `shrinkRest`) and
each iteration shortens `rest` by at least one character while using up one
step, so `n` never runs out while the loop guard (which needs
`3 < rest.length`) still holds; the `0` case is unreachable. -/
def shrinkRestN (mwl : List Char → Except Exc Int) (max_w : Int) :
    Nat → List Char → Except Exc (List Char)
  | n, rest =>
    match mwl (rest ++ ['…']) with
    | .error e => .error e
    | .ok w =>
      if max_w < w ∧ 3 < rest.length then
        match n with
        | 0 => .ok rest
        | n' + 1 => shrinkRestN mwl max_w n' (rtrim rest.dropLast)
      else .ok rest

/-- The ellipsis-shrinking loop inside `wrap2_ellips`:
`while text_width(rest + "…", font) > max_w and len(rest) > 3:
   rest = rest[:-1].rstrip()`. -/
def shrinkRest (mwl : List Char → Except Exc Int) (max_w : Int) (rest : List Char) :
    Except Exc (List Char) :=
  shrinkRestN mwl max_w rest.length rest

/-- The main loop of `wrap2_ellips` over the words, carrying the finished
`lines` and the current line `cur`. -/
def wrapLoop (mwl : List Char → Except Exc Int) (max_w : Int) (max_lines : Int) :
    List (List Char) → List (List Char) → List Char → Except Exc (List (List Char))
  | [], lines, cur =>
    .ok ((if cur ≠ [] then lines ++ [cur] else lines).take max_lines.toNat)
  | w :: ws, lines, cur =>
    match mwl (pstrip (cur ++ ' ' :: w)) with
    | .error e => .error e
    | .ok tw =>
      if tw ≤ max_w then wrapLoop mwl max_w max_lines ws lines (pstrip (cur ++ ' ' :: w))
      else
        let lines1 := if cur ≠ [] then lines ++ [cur] else lines
        if (lines1.length : Int) = max_lines - 1 then
          let rest0 := joinSp (w :: ws)
          match shrinkRest mwl max_w rest0 with
          | .error e => .error e
          | .ok rest =>
            .ok (lines1 ++ [rest ++ (if rest.length < rest0.length then ['…'] else [])])
        else wrapLoop mwl max_w max_lines ws lines1 w

/-- The clean-final version's `wrap2_ellips(text, font, max_w, max_lines)`,
with the text-width measure (closed over the font) passed explicitly. -/
def wrap2_ellips (mw : String → Except Exc Int) (text : String)
    (max_w : Int) (max_lines : Int) : Except Exc (List String) :=
  let words := splitWs text.data
  if words.isEmpty then .ok [text]
  else
    (wrapLoop (fun l => mw (String.mk l)) max_w max_lines words [] []).map
      (List.map String.mk)

/-- The description-drawing loop of the clean-final version:
`for i, line in enumerate(desc_lines): line_y = desc_y + i * (text_height(line,
desc_font) + LINE_GAP); draw_text_with_fallback((desc_x, line_y), line, ...)`.
Returns the draw calls issued before a possible exception. -/
def drawDescLines (env : Env) (f : Option Font) (dx dy : Int) :
    Nat → List String → Except Exc Unit × List Ev
  | _, [] => (.ok (), [])
  | i, line :: rest =>
    match text_height env line f with
    | .error e => (.error e, [])
    | .ok th =>
      let ev := Ev.text dx (dy + (i : Int) * (th + 6)) line f 0
      match drawDescLines env f dx dy (i + 1) rest with
      | (r, evs) => (r, ev :: evs)

/-- The clean-final version's loop over alternative cardinal codes:
`for alt_code in alt_codes: alt_icon = get_wind_icon(alt_code, ...); if
alt_icon: cardinal_icon = alt_icon; break`. -/
def tryAltCodes (env : Env) : List String → Except Exc (Option Icon)
  | [] => .ok none
  | c :: cs =>
    match env.windIcon c (32, 32) with
    | .error e => .error e
    | .ok (some ic) => .ok (some ic)
    | .ok none => tryAltCodes env cs

/-- Body of `WindRenderer.render` in
`src/backup/wind_layout_fix_20250815_175437/wind_renderer.py` (the vertical
cycle-focused layout): result of the `try` body plus the draw calls issued. -/
def runLayoutFix0815 (env : Env) (x y width height : Int) (weather : WMap) :
    Except Exc Bool × List Ev :=
  let wind_speed := safe_get_value weather "wind_speed" 0
  let wind_direction := safe_get_value weather "wind_direction" 0
  match env.windDesc wind_speed with
  | .error e => (.error e, [])
  | .ok speed_description =>
  match env.windDirInfo wind_direction with
  | .error e => (.error e, [])
  | .ok di =>
  match env.systemIcon "strong-wind" (48, 48) with
  | .error e => (.error e, [])
  | .ok general_wind_icon =>
  let icon_center_x := x + Int.fdiv width 2 - 24
  let evs1 :=
    match general_wind_icon with
    | some ic => [Ev.icon ic icon_center_x (y + 15)]
    | none => []
  let ms_text := msTextOf wind_speed
  let ms_center_x := x + Int.fdiv width 2
  let evs2 := evs1 ++
    [Ev.text (ms_center_x - 50) (y + 75) ms_text (fontGet2 env "hero_temp" "small_main") 0]
  let desc_center_x := x + Int.fdiv width 2
  let evs3 := evs2 ++
    [Ev.text (desc_center_x - 40) (y + 115) speed_description
      (fontGet2 env "medium_desc" "small_desc") 0]
  match env.windIcon di.2 (32, 32) with
  | .error e => (.error e, evs3)
  | .ok cardinal_icon =>
  let cardinal_center_x := x + Int.fdiv width 2 - 16
  let evs4 := evs3 ++
    (match cardinal_icon with
     | some ic => [Ev.icon ic cardinal_center_x (y + 150)]
     | none => [])
  let direction_x := cardinal_center_x + 40
  (.ok true, evs4 ++
    [Ev.text direction_x (y + 155) di.1 (fontGet2 env "medium_desc" "small_desc") 0])

/-- Body of `WindRenderer.render` in
`src/backup/wind_layout_fix_20250817_164437/wind_renderer.py` (the horizontal
layout). -/
def runLayoutFix0817 (env : Env) (x y width height : Int) (weather : WMap) :
    Except Exc Bool × List Ev :=
  let wind_speed := safe_get_value weather "wind_speed" 0
  let wind_direction := safe_get_value weather "wind_direction" 0
  match env.windDesc wind_speed with
  | .error e => (.error e, [])
  | .ok speed_description =>
  match env.windDirInfo wind_direction with
  | .error e => (.error e, [])
  | .ok di =>
  match env.systemIcon "strong-wind" (48, 48) with
  | .error e => (.error e, [])
  | .ok general_wind_icon =>
  let icon_x := x + 20
  let icon_y := y + 25
  let evs1 :=
    match general_wind_icon with
    | some ic => [Ev.icon ic icon_x icon_y]
    | none => []
  let ms_text := msTextOf wind_speed
  let ms_x := icon_x + 60
  let ms_y := y + 35
  let evs2 := evs1 ++
    [Ev.text ms_x ms_y ms_text (fontGet2 env "hero_temp" "small_main") 0]
  let desc_x := ms_x
  let desc_y := ms_y + 50
  let evs3 := evs2 ++
    [Ev.text desc_x desc_y speed_description (fontGet2 env "medium_desc" "small_desc") 0]
  match env.windIcon di.2 (32, 32) with
  | .error e => (.error e, evs3)
  | .ok cardinal_icon =>
  let cardinal_x := x + 30
  let cardinal_y := y + height - 50
  let evs4 := evs3 ++
    (match cardinal_icon with
     | some ic => [Ev.icon ic cardinal_x cardinal_y]
     | none => [])
  let direction_x := cardinal_x + 40
  let direction_y := cardinal_y + 5
  (.ok true, evs4 ++
    [Ev.text direction_x direction_y di.1 (fontGet2 env "medium_desc" "small_desc") 0])

/-- Body of `WindRenderer.render` in
`src/backup/wind_text_bounds_fix_20250817_165040/wind_renderer.py` (the
symmetric centered layout).  `get_text_bounds` is modelled from the spec
(base class, not under `src/`) as the text-measurement collaborator
`env.textBounds` returning (width, height) extents. -/
def runTextBoundsFix (env : Env) (x y width height : Int) (weather : WMap) :
    Except Exc Bool × List Ev :=
  let wind_speed := safe_get_value weather "wind_speed" 0
  let wind_direction := safe_get_value weather "wind_direction" 0
  match env.windDesc wind_speed with
  | .error e => (.error e, [])
  | .ok speed_description =>
  match env.windDirInfo wind_direction with
  | .error e => (.error e, [])
  | .ok di =>
  let rectEv := Ev.rect (x + 2) (y + 2) (x + width - 2) (y + height - 2) 0 2
  let center_x := x + Int.fdiv width 2
  match env.systemIcon "strong-wind" (40, 40) with
  | .error e => (.error e, [rectEv])
  | .ok general_wind_icon =>
  let evs1 := [rectEv] ++
    (match general_wind_icon with
     | some ic => [Ev.icon ic (center_x - 20) (y + 25)]
     | none => [])
  let ms_text := msTextOf wind_speed
  match env.textBounds ms_text (fontGet2 env "large_main" "medium_main") with
  | .error e => (.error e, evs1)
  | .ok text_bbox =>
  let ms_x := center_x - Int.fdiv text_bbox.1 2
  let ms_y := y + 80
  let evs2 := evs1 ++
    [Ev.text ms_x ms_y ms_text (fontGet2 env "large_main" "medium_main") 0]
  match env.textBounds speed_description (fontGet2 env "medium_main" "small_main") with
  | .error e => (.error e, evs2)
  | .ok desc_bbox =>
  let desc_x := center_x - Int.fdiv desc_bbox.1 2
  let desc_y := ms_y + 40
  let evs3 := evs2 ++
    [Ev.text desc_x desc_y speed_description (fontGet2 env "medium_main" "small_main") 0]
  match env.windIcon di.2 (24, 24) with
  | .error e => (.error e, evs3)
  | .ok cardinal_icon =>
  let direction_y_base := y + height - 45
  match env.textBounds di.1 (fontGet2 env "small_main" "small_desc") with
  | .error e => (.error e, evs3)
  | .ok direction_text_bbox =>
  let combined_width := 24 + 8 + direction_text_bbox.1
  let combined_x := center_x - Int.fdiv combined_width 2
  let evs4 := evs3 ++
    (match cardinal_icon with
     | some ic => [Ev.icon ic combined_x direction_y_base]
     | none => [])
  let direction_x := combined_x + 24 + 8
  let direction_y := direction_y_base + 2
  (.ok true, evs4 ++
    [Ev.text direction_x direction_y di.1 (fontGet2 env "small_main" "small_desc") 0])

/-- The clean-final version's `label_font = self.fonts.get('small_main',
desc_font)` where `desc_font = self.fonts.get('small_main',
self.fonts.get('small_desc'))`. -/
def label_font_cf (env : Env) : Option Font :=
  match env.fonts "small_main" with
  | some f => some f
  | none => fontGet2 env "small_main" "small_desc"

/-- Section 3 of the clean-final version's `render` (the illustration icon
with collision protection): the draw calls it issues, given the fetched
`wind_icon`.  When the icon is present it re-measures `ms_text` and moves
the icon down if the m/s text reaches the right column. -/
def illustrationIconEvs (env : Env) (x y width desc_y : Int) (ms_text : String)
    (ms_font : Option Font) (wind_icon : Option Icon) : Except Exc (List Ev) :=
  match wind_icon with
  | none => .ok []
  | some ic =>
    (text_width env ms_text ms_font).map fun msw =>
      let ms_right_edge := x + 20 + msw
      let icon_y :=
        if x + 20 + (width - 20 - (32 + 24) - 20) < ms_right_edge + 12 then desc_y - 4
        else y + Int.fdiv 20 2
      [Ev.icon ic (x + width - 24 - 32) icon_y]

/-- Section 4 of the clean-final version's `render` (the cardinal-direction
group: arrow icon or fallback arrow text, plus the short label, centered at
the bottom), given the draw calls `evsB` issued so far. -/
def cleanFinalTail (env : Env) (x y width height : Int) (di : String × String)
    (evsB : List Ev) : Except Exc Bool × List Ev :=
  match env.windIcon di.2 (32, 32) with
  | .error e => (.error e, evsB)
  | .ok cardinal_icon0 =>
  match (match cardinal_icon0 with
         | some ic => Except.ok (some ic)
         | none => tryAltCodes env ["n", "N", pupper di.2, plower di.2]) with
  | .error e => (.error e, evsB)
  | .ok cardinal_icon =>
  match text_width env di.1 (label_font_cf env) with
  | .error e => (.error e, evsB)
  | .ok label_w =>
  let icon_w : Int := if cardinal_icon.isSome then 32 else 0
  let gap : Int := if cardinal_icon.isSome then 8 else 0
  let combined_w := icon_w + gap + label_w
  let base_y := y + height - 20 - 32
  let start_x := x + Int.fdiv (width - combined_w) 2
  let cursorEvs :=
    match cardinal_icon with
    | some ic => [Ev.icon ic start_x base_y]
    | none => [Ev.text start_x base_y "→" (label_font_cf env) 0]
  let cursor_x :=
    match cardinal_icon with
    | some _ => start_x + 32 + gap
    | none => start_x + 20
  let evsC := evsB ++ cursorEvs
  match text_height env di.1 (label_font_cf env) with
  | .error e => (.error e, evsC)
  | .ok lh =>
  let label_y := base_y + Int.fdiv (32 - lh) 2
  (.ok true, evsC ++ [Ev.text cursor_x label_y di.1 (label_font_cf env) 0])

/-- Body of `WindRenderer.render` in
`src/backup/wind_clean_final_20250817_180020/wind_renderer.py` (the
collision-safe layout with line wrapping). -/
def runCleanFinal (env : Env) (x y width height : Int) (weather : WMap) :
    Except Exc Bool × List Ev :=
  let wind_speed := safe_get_value weather "wind_speed" 0
  let wind_direction := safe_get_value weather "wind_direction" 0
  match env.windDesc wind_speed with
  | .error e => (.error e, [])
  | .ok speed_description =>
  match env.windDirInfo wind_direction with
  | .error e => (.error e, [])
  | .ok di =>
  let rectEv := Ev.rect (x + 2) (y + 2) (x + width - 2) (y + height - 2) 0 2
  let ms_text := msTextOf wind_speed
  let ms_font := fontGet2 env "large_main" "medium_main"
  match env.textbbox ms_text ms_font with
  | .error e => (.error e, [rectEv])
  | .ok ms_bbox =>
  let ms_x := x + 20
  let ms_y := y + 20
  let msEv := Ev.text ms_x ms_y ms_text ms_font 0
  let desc_font := fontGet2 env "small_main" "small_desc"
  match wrap2_ellips (fun t => text_width env t desc_font) speed_description 172 2 with
  | .error e => (.error e, [rectEv, msEv])
  | .ok desc_lines =>
  let ms_height := ms_bbox.2.2.2 - ms_bbox.2.1
  let desc_y := ms_y + ms_height + 36
  match drawDescLines env desc_font ms_x desc_y 0 desc_lines with
  | (.error e, devs) => (.error e, [rectEv, msEv] ++ devs)
  | (.ok _, devs) =>
  let evsA := [rectEv, msEv] ++ devs
  match env.systemIcon "strong-wind" (32, 32) with
  | .error e => (.error e, evsA)
  | .ok wind_icon =>
  match illustrationIconEvs env x y width desc_y ms_text ms_font wind_icon with
  | .error e => (.error e, evsA)
  | .ok iconEvs =>
  cleanFinalTail env x y width height di (evsA ++ iconEvs)

/-- The `try`/`except` wrapper shared by all four versions of `render`:
on any exception in the body it calls
`render_fallback_content(x, y, width, height, "Wind-data ej tillgänglig")`
and returns its result; the mapping arguments are state-passed unchanged. -/
def renderWith (body : Env → Int → Int → Int → Int → WMap → Except Exc Bool × List Ev)
    (env : Env) (x y width height : Int) (weather context : WMap) : RunResult :=
  match body env x y width height weather with
  | (.ok b, evs) => ⟨b, evs, weather, context⟩
  | (.error _, evs) =>
    let fb := env.fallback x y width height "Wind-data ej tillgänglig"
    ⟨fb.1, evs ++ fb.2, weather, context⟩

/-- `WindRenderer.render` of `wind_layout_fix_20250815_175437`. -/
def renderLayoutFix0815 (env : Env) (x y width height : Int)
    (weather context : WMap) : RunResult :=
  renderWith runLayoutFix0815 env x y width height weather context

/-- `WindRenderer.render` of `wind_layout_fix_20250817_164437`. -/
def renderLayoutFix0817 (env : Env) (x y width height : Int)
    (weather context : WMap) : RunResult :=
  renderWith runLayoutFix0817 env x y width height weather context

/-- `WindRenderer.render` of `wind_text_bounds_fix_20250817_165040`. -/
def renderTextBoundsFix (env : Env) (x y width height : Int)
    (weather context : WMap) : RunResult :=
  renderWith runTextBoundsFix env x y width height weather context

/-- `WindRenderer.render` of `wind_clean_final_20250817_180020`. -/
def renderCleanFinal (env : Env) (x y width height : Int)
    (weather context : WMap) : RunResult :=
  renderWith runCleanFinal env x y width height weather context

/-- `get_required_data_sources` of `wind_layout_fix_20250815_175437`. -/
def requiredSourcesLayoutFix0815 : List String := ["smhi"]

/-- `get_required_data_sources` of `wind_layout_fix_20250817_164437`. -/
def requiredSourcesLayoutFix0817 : List String := ["smhi"]

/-- `get_required_data_sources` of `wind_text_bounds_fix_20250817_165040`. -/
def requiredSourcesTextBoundsFix : List String := ["smhi"]

/-- `get_required_data_sources` of `wind_clean_final_20250817_180020`. -/
def requiredSourcesCleanFinal : List String := ["smhi"]

/-- The strings of the text draw calls of a trace, in order. -/
def textsOf (evs : List Ev) : List String :=
  evs.filterMap fun ev =>
    match ev with
    | .text _ _ s _ _ => some s
    | _ => none

/-- Whether a draw call is a rectangle-outline call. -/
def isRectEv : Ev → Bool
  | .rect _ _ _ _ _ _ => true
  | _ => false

/-- The anchor point of a text draw call or the top-left corner of an icon
draw call lies within the closed region `[x, x+w] × [y, y+h]`.  Rectangle
calls are not placements in the sense of the claim. -/
def inBoundsEv (x y w h : Int) : Ev → Bool
  | .rect _ _ _ _ _ _ => true
  | .text px py _ _ _ =>
    decide (x ≤ px) && decide (px ≤ x + w) && decide (y ≤ py) && decide (py ≤ y + h)
  | .icon _ px py =>
    decide (x ≤ px) && decide (px ≤ x + w) && decide (y ≤ py) && decide (py ≤ y + h)

/-- An empty weather/context mapping. -/
def mapNone : WMap := fun _ => none

/-- A weather mapping holding only `wind_speed = 5`. -/
def mapW5 : WMap := fun k => if k = "wind_speed" then some 5 else none

/-- A weather mapping agreeing with `mapW5` on the two wind keys but holding
an extra unrelated key. -/
def mapW5b : WMap :=
  fun k => if k = "extra" then some 9 else if k = "wind_speed" then some 5 else none

/-- A concrete environment whose measurements are small and bounded. -/
def envW : Env where
  fonts := fun _ => some 1
  windDesc := fun _ => .ok "Måttlig vind"
  windDirInfo := fun _ => .ok ("SV", "sv")
  systemIcon := fun _ _ => .ok (some 2)
  windIcon := fun _ _ => .ok (some 3)
  textbbox := fun _ _ => .ok (0, 0, 50, 20)
  textBounds := fun _ _ => .ok (50, 20)
  fallback := fun x y _ _ s => (false, [Ev.text x y s none 0])

/-- A concrete environment whose fonts report very tall text (measured
height 200) while all measured widths are small (10). -/
def envHigh : Env where
  fonts := fun _ => none
  windDesc := fun _ => .ok "Lugnt"
  windDirInfo := fun _ => .ok ("N", "n")
  systemIcon := fun _ _ => .ok none
  windIcon := fun _ _ => .ok none
  textbbox := fun _ _ => .ok (0, 0, 10, 200)
  textBounds := fun _ _ => .ok (10, 200)
  fallback := fun x y _ _ s => (false, [Ev.text x y s none 0])

/-- A concrete environment whose icon manager returns the same display
strings for every input and which measures 30 pixels per character. -/
def envConst : Env where
  fonts := fun _ => none
  windDesc := fun _ => .ok "aaa bbb"
  windDirInfo := fun _ => .ok ("N", "n")
  systemIcon := fun _ _ => .ok none
  windIcon := fun _ _ => .ok none
  textbbox := fun t _ => .ok (0, 0, 30 * t.data.length, 10)
  textBounds := fun t _ => .ok (30 * t.data.length, 10)
  fallback := fun x y _ _ s => (false, [Ev.text x y s none 0])

/-- A concrete environment whose description lookup raises. -/
def envThrow : Env := { envW with windDesc := fun _ => .error 7 }

/-- A character-count text measure (for witnesses). -/
def pmLen : List Char → Int := fun l => (l.length : Int)

/-! ## Theorems -/

theorem fdiv_two (a : Int) : Int.fdiv a 2 = a / 2 :=
  Int.fdiv_eq_ediv a (by decide)

theorem renderWith_of_ok
    (body : Env → Int → Int → Int → Int → WMap → Except Exc Bool × List Ev)
    (env : Env) (x y width height : Int) (weather context : WMap) (b : Bool)
    (evs : List Ev) (h : body env x y width height weather = (.ok b, evs)) :
    renderWith body env x y width height weather context = ⟨b, evs, weather, context⟩ := by
  unfold renderWith
  rw [h]

theorem renderWith_of_error
    (body : Env → Int → Int → Int → Int → WMap → Except Exc Bool × List Ev)
    (env : Env) (x y width height : Int) (weather context : WMap) (e : Exc)
    (evs : List Ev) (h : body env x y width height weather = (.error e, evs)) :
    renderWith body env x y width height weather context =
      ⟨(env.fallback x y width height "Wind-data ej tillgänglig").1,
       evs ++ (env.fallback x y width height "Wind-data ej tillgänglig").2,
       weather, context⟩ := by
  unfold renderWith
  rw [h]

theorem renderWith_mappings
    (body : Env → Int → Int → Int → Int → WMap → Except Exc Bool × List Ev)
    (env : Env) (x y width height : Int) (weather context : WMap) :
    (renderWith body env x y width height weather context).weather = weather ∧
    (renderWith body env x y width height weather context).context = context := by
  unfold renderWith
  split <;> exact ⟨rfl, rfl⟩

theorem runLayoutFix0815_ok_true (env : Env) (x y width height : Int) (weather : WMap)
    (b : Bool) (evs : List Ev)
    (h : runLayoutFix0815 env x y width height weather = (.ok b, evs)) : b = true := by
  unfold runLayoutFix0815 at h
  simp only [] at h
  repeat' split at h
  all_goals simp_all

theorem runLayoutFix0817_ok_true (env : Env) (x y width height : Int) (weather : WMap)
    (b : Bool) (evs : List Ev)
    (h : runLayoutFix0817 env x y width height weather = (.ok b, evs)) : b = true := by
  unfold runLayoutFix0817 at h
  simp only [] at h
  repeat' split at h
  all_goals simp_all

theorem runTextBoundsFix_ok_true (env : Env) (x y width height : Int) (weather : WMap)
    (b : Bool) (evs : List Ev)
    (h : runTextBoundsFix env x y width height weather = (.ok b, evs)) : b = true := by
  unfold runTextBoundsFix at h
  simp only [] at h
  repeat' split at h
  all_goals simp_all

theorem illustrationIconEvs_shape (env : Env) (x y width desc_y : Int)
    (ms_text : String) (ms_font : Option Font) (wind_icon : Option Icon)
    (ievs : List Ev)
    (h : illustrationIconEvs env x y width desc_y ms_text ms_font wind_icon = .ok ievs) :
    ievs = [] ∨ ∃ ic icy, ievs = [Ev.icon ic (x + width - 24 - 32) icy] ∧
      (icy = desc_y - 4 ∨ icy = y + Int.fdiv 20 2) := by
  unfold illustrationIconEvs at h
  cases wind_icon with
  | none =>
    simp only [Except.ok.injEq] at h
    exact Or.inl h.symm
  | some ic =>
    simp only [Except.map] at h
    cases htw : text_width env ms_text ms_font with
    | error e => rw [htw] at h; simp at h
    | ok msw =>
      rw [htw] at h
      simp only [Except.ok.injEq] at h
      right
      refine ⟨ic, _, h.symm, ?_⟩
      split
      · exact Or.inl rfl
      · exact Or.inr rfl

theorem cleanFinalTail_shape (env : Env) (x y width height : Int) (di : String × String)
    (evsB : List Ev) (b : Bool) (evs : List Ev)
    (h : cleanFinalTail env x y width height di evsB = (.ok b, evs)) :
    b = true ∧
    ∃ label_w lh cursorEvs cursor_x,
      text_width env di.1 (label_font_cf env) = .ok label_w ∧
      text_height env di.1 (label_font_cf env) = .ok lh ∧
      ((∃ ic, cursorEvs = [Ev.icon ic (x + Int.fdiv (width - (32 + 8 + label_w)) 2)
            (y + height - 20 - 32)] ∧
          cursor_x = x + Int.fdiv (width - (32 + 8 + label_w)) 2 + 32 + 8) ∨
       (cursorEvs = [Ev.text (x + Int.fdiv (width - label_w) 2)
            (y + height - 20 - 32) "→" (label_font_cf env) 0] ∧
          cursor_x = x + Int.fdiv (width - label_w) 2 + 20)) ∧
      evs = evsB ++ cursorEvs ++
        [Ev.text cursor_x (y + height - 20 - 32 + Int.fdiv (32 - lh) 2) di.1
          (label_font_cf env) 0] := by
  unfold cleanFinalTail at h
  simp only [] at h
  cases hci0 : env.windIcon di.2 (32, 32) with
  | error e => rw [hci0] at h; simp at h
  | ok ci0 =>
  rw [hci0] at h
  simp only [] at h
  cases hres : (match ci0 with
      | some ic => Except.ok (some ic)
      | none => tryAltCodes env ["n", "N", pupper di.2, plower di.2]) with
  | error e => rw [hres] at h; simp at h
  | ok copt =>
  rw [hres] at h
  simp only [] at h
  cases hlw : text_width env di.1 (label_font_cf env) with
  | error e => rw [hlw] at h; simp at h
  | ok label_w =>
  rw [hlw] at h
  simp only [] at h
  cases copt with
  | some ic =>
    simp only [Option.isSome_some, if_pos] at h
    cases hlh : text_height env di.1 (label_font_cf env) with
    | error e => rw [hlh] at h; simp at h
    | ok lh =>
      rw [hlh] at h
      simp only [Prod.mk.injEq, Except.ok.injEq] at h
      obtain ⟨hb, hevs⟩ := h
      subst hb
      subst hevs
      refine ⟨rfl, label_w, lh, _, _, rfl, rfl, Or.inl ⟨ic, rfl, rfl⟩, ?_⟩
      norm_num
  | none =>
    simp only [Option.isSome_none, if_neg] at h
    cases hlh : text_height env di.1 (label_font_cf env) with
    | error e => rw [hlh] at h; simp at h
    | ok lh =>
      rw [hlh] at h
      simp only [Prod.mk.injEq, Except.ok.injEq] at h
      obtain ⟨hb, hevs⟩ := h
      subst hb
      subst hevs
      refine ⟨rfl, label_w, lh, _, _, rfl, rfl, Or.inr ⟨rfl, rfl⟩, ?_⟩
      norm_num

theorem runCleanFinal_ok_true (env : Env) (x y width height : Int) (weather : WMap)
    (b : Bool) (evs : List Ev)
    (h : runCleanFinal env x y width height weather = (.ok b, evs)) : b = true := by
  unfold runCleanFinal at h
  simp only [] at h
  repeat' split at h
  all_goals (try simp_all)
  all_goals exact (cleanFinalTail_shape _ _ _ _ _ _ _ _ _ h).1

theorem runCleanFinal_shape (env : Env) (x y width height : Int) (weather : WMap)
    (b : Bool) (evs : List Ev)
    (h : runCleanFinal env x y width height weather = (.ok b, evs)) :
    b = true ∧
    ∃ desc di bb dls u devs iconEvs label_w lh cursorEvs cursor_x,
      env.windDesc (safe_get_value weather "wind_speed" 0) = .ok desc ∧
      env.windDirInfo (safe_get_value weather "wind_direction" 0) = .ok di ∧
      env.textbbox (msTextOf (safe_get_value weather "wind_speed" 0))
        (fontGet2 env "large_main" "medium_main") = .ok bb ∧
      wrap2_ellips (fun t => text_width env t (fontGet2 env "small_main" "small_desc"))
        desc 172 2 = .ok dls ∧
      drawDescLines env (fontGet2 env "small_main" "small_desc") (x + 20)
        (y + 20 + (bb.2.2.2 - bb.2.1) + 36) 0 dls = (.ok u, devs) ∧
      (iconEvs = [] ∨ ∃ ic icy, iconEvs = [Ev.icon ic (x + width - 24 - 32) icy] ∧
        (icy = y + 20 + (bb.2.2.2 - bb.2.1) + 36 - 4 ∨ icy = y + Int.fdiv 20 2)) ∧
      text_width env di.1 (label_font_cf env) = .ok label_w ∧
      text_height env di.1 (label_font_cf env) = .ok lh ∧
      ((∃ ic, cursorEvs = [Ev.icon ic (x + Int.fdiv (width - (32 + 8 + label_w)) 2)
            (y + height - 20 - 32)] ∧
          cursor_x = x + Int.fdiv (width - (32 + 8 + label_w)) 2 + 32 + 8) ∨
       (cursorEvs = [Ev.text (x + Int.fdiv (width - label_w) 2)
            (y + height - 20 - 32) "→" (label_font_cf env) 0] ∧
          cursor_x = x + Int.fdiv (width - label_w) 2 + 20)) ∧
      evs = Ev.rect (x + 2) (y + 2) (x + width - 2) (y + height - 2) 0 2 ::
            Ev.text (x + 20) (y + 20) (msTextOf (safe_get_value weather "wind_speed" 0))
              (fontGet2 env "large_main" "medium_main") 0 ::
            (devs ++ iconEvs ++ cursorEvs ++
             [Ev.text cursor_x (y + height - 20 - 32 + Int.fdiv (32 - lh) 2) di.1
               (label_font_cf env) 0]) := by
  unfold runCleanFinal at h
  simp only [] at h
  cases hdesc : env.windDesc (safe_get_value weather "wind_speed" 0) with
  | error e => rw [hdesc] at h; simp at h
  | ok desc =>
  rw [hdesc] at h
  simp only [] at h
  cases hdi : env.windDirInfo (safe_get_value weather "wind_direction" 0) with
  | error e => rw [hdi] at h; simp at h
  | ok di =>
  rw [hdi] at h
  simp only [] at h
  cases hbb : env.textbbox (msTextOf (safe_get_value weather "wind_speed" 0))
      (fontGet2 env "large_main" "medium_main") with
  | error e => rw [hbb] at h; simp at h
  | ok bb =>
  rw [hbb] at h
  simp only [] at h
  cases hwrap : wrap2_ellips (fun t => text_width env t (fontGet2 env "small_main" "small_desc"))
      desc 172 2 with
  | error e => rw [hwrap] at h; simp at h
  | ok dls =>
  rw [hwrap] at h
  simp only [] at h
  rcases hdd : drawDescLines env (fontGet2 env "small_main" "small_desc") (x + 20)
      (y + 20 + (bb.2.2.2 - bb.2.1) + 36) 0 dls with ⟨r, devs⟩
  rw [hdd] at h
  cases r with
  | error e => simp only [] at h; simp at h
  | ok u =>
  simp only [] at h
  cases hsys : env.systemIcon "strong-wind" (32, 32) with
  | error e => rw [hsys] at h; simp at h
  | ok wind_icon =>
  rw [hsys] at h
  simp only [] at h
  cases hill : illustrationIconEvs env x y width (y + 20 + (bb.2.2.2 - bb.2.1) + 36)
      (msTextOf (safe_get_value weather "wind_speed" 0))
      (fontGet2 env "large_main" "medium_main") wind_icon with
  | error e => rw [hill] at h; simp at h
  | ok iconEvs =>
  rw [hill] at h
  simp only [] at h
  obtain ⟨hb, label_w, lh, cursorEvs, cursor_x, hlw, hlh, hcur, hevs⟩ :=
    cleanFinalTail_shape env x y width height di _ b evs h
  subst hb
  refine ⟨rfl, desc, di, bb, dls, u, devs, iconEvs, label_w, lh, cursorEvs, cursor_x,
    rfl, rfl, rfl, hwrap, hdd,
    illustrationIconEvs_shape env x y width _ _ _ wind_icon iconEvs hill,
    hlw, hlh, hcur, ?_⟩
  rw [hevs]
  simp [List.append_assoc]

theorem drawDescLines_texts (env : Env) (f : Option Font) (dx dy : Int) :
    ∀ (ls : List String) (i : Nat) (u : Unit) (devs : List Ev),
      drawDescLines env f dx dy i ls = (.ok u, devs) →
      List.filterMap
        (fun ev =>
          match ev with
          | Ev.text _ _ s _ _ => some s
          | _ => none) devs = ls := by
  show ∀ (ls : List String) (i : Nat) (u : Unit) (devs : List Ev),
      drawDescLines env f dx dy i ls = (.ok u, devs) → textsOf devs = ls
  intro ls
  induction ls with
  | nil =>
    intro i u devs h
    unfold drawDescLines at h
    simp only [Prod.mk.injEq] at h
    simp [← h.2, textsOf]
  | cons line rest ih =>
    intro i u devs h
    unfold drawDescLines at h
    split at h
    · simp at h
    · split at h
      rename_i r evs' heq
      simp only [Prod.mk.injEq] at h
      obtain ⟨hr, hdevs⟩ := h
      subst hr
      simp [← hdevs, textsOf]
      have := ih (i + 1) u evs' heq
      simpa [textsOf] using this

theorem texts_runLayoutFix0815 (env : Env) (x y width height : Int) (weather : WMap)
    (b : Bool) (evs : List Ev)
    (h : runLayoutFix0815 env x y width height weather = (.ok b, evs)) :
    ∃ desc di,
      env.windDesc (safe_get_value weather "wind_speed" 0) = .ok desc ∧
      env.windDirInfo (safe_get_value weather "wind_direction" 0) = .ok di ∧
      textsOf evs = [msTextOf (safe_get_value weather "wind_speed" 0), desc, di.1] := by
  replace h := h.symm
  unfold runLayoutFix0815 at h
  simp only [] at h
  repeat' split at h
  all_goals simp_all [textsOf]

theorem texts_runLayoutFix0817 (env : Env) (x y width height : Int) (weather : WMap)
    (b : Bool) (evs : List Ev)
    (h : runLayoutFix0817 env x y width height weather = (.ok b, evs)) :
    ∃ desc di,
      env.windDesc (safe_get_value weather "wind_speed" 0) = .ok desc ∧
      env.windDirInfo (safe_get_value weather "wind_direction" 0) = .ok di ∧
      textsOf evs = [msTextOf (safe_get_value weather "wind_speed" 0), desc, di.1] := by
  replace h := h.symm
  unfold runLayoutFix0817 at h
  simp only [] at h
  repeat' split at h
  all_goals simp_all [textsOf]

theorem texts_runTextBoundsFix (env : Env) (x y width height : Int) (weather : WMap)
    (b : Bool) (evs : List Ev)
    (h : runTextBoundsFix env x y width height weather = (.ok b, evs)) :
    ∃ desc di,
      env.windDesc (safe_get_value weather "wind_speed" 0) = .ok desc ∧
      env.windDirInfo (safe_get_value weather "wind_direction" 0) = .ok di ∧
      textsOf evs = [msTextOf (safe_get_value weather "wind_speed" 0), desc, di.1] := by
  replace h := h.symm
  unfold runTextBoundsFix at h
  simp only [] at h
  repeat' split at h
  all_goals simp_all [textsOf]

theorem texts_runCleanFinal (env : Env) (x y width height : Int) (weather : WMap)
    (b : Bool) (evs : List Ev)
    (h : runCleanFinal env x y width height weather = (.ok b, evs)) :
    ∃ desc di dls rest,
      env.windDesc (safe_get_value weather "wind_speed" 0) = .ok desc ∧
      env.windDirInfo (safe_get_value weather "wind_direction" 0) = .ok di ∧
      wrap2_ellips (fun t => text_width env t (fontGet2 env "small_main" "small_desc"))
        desc 172 2 = .ok dls ∧
      textsOf evs = msTextOf (safe_get_value weather "wind_speed" 0) :: (dls ++ rest ++ [di.1]) ∧
      (rest = [] ∨ rest = ["→"]) := by
  obtain ⟨hb, desc, di, bb, dls, u, devs, iconEvs, lw, lh, cursorEvs, cx,
    hdesc, hdi, hbb, hwrap, hdd, hicon, hlw, hlh, hcur, hevs⟩ :=
    runCleanFinal_shape env x y width height weather b evs h
  have hdevs := drawDescLines_texts env (fontGet2 env "small_main" "small_desc")
    (x + 20) (y + 20 + (bb.2.2.2 - bb.2.1) + 36) dls 0 u devs hdd
  rcases hicon with rfl | ⟨ic, icy, rfl, hicy⟩ <;>
    rcases hcur with ⟨ic2, rfl, rfl⟩ | ⟨rfl, rfl⟩ <;>
    [refine ⟨desc, di, dls, [], hdesc, hdi, hwrap, ?_, Or.inl rfl⟩;
     refine ⟨desc, di, dls, ["→"], hdesc, hdi, hwrap, ?_, Or.inr rfl⟩;
     refine ⟨desc, di, dls, [], hdesc, hdi, hwrap, ?_, Or.inl rfl⟩;
     refine ⟨desc, di, dls, ["→"], hdesc, hdi, hwrap, ?_, Or.inr rfl⟩] <;>
    (rw [hevs]; simp [textsOf, List.filterMap_append, hdevs])

theorem norect_runLayoutFix0815 (env : Env) (x y width height : Int) (weather : WMap)
    (r : Except Exc Bool) (evs : List Ev)
    (h : runLayoutFix0815 env x y width height weather = (r, evs)) :
    ∀ ev ∈ evs, isRectEv ev = false := by
  replace h := h.symm
  unfold runLayoutFix0815 at h
  simp only [] at h
  repeat' split at h
  all_goals simp_all [isRectEv]

theorem norect_runLayoutFix0817 (env : Env) (x y width height : Int) (weather : WMap)
    (r : Except Exc Bool) (evs : List Ev)
    (h : runLayoutFix0817 env x y width height weather = (r, evs)) :
    ∀ ev ∈ evs, isRectEv ev = false := by
  replace h := h.symm
  unfold runLayoutFix0817 at h
  simp only [] at h
  repeat' split at h
  all_goals simp_all [isRectEv]

theorem rect_runTextBoundsFix (env : Env) (x y width height : Int) (weather : WMap)
    (b : Bool) (evs : List Ev)
    (h : runTextBoundsFix env x y width height weather = (.ok b, evs)) :
    Ev.rect (x + 2) (y + 2) (x + width - 2) (y + height - 2) 0 2 ∈ evs := by
  replace h := h.symm
  unfold runTextBoundsFix at h
  simp only [] at h
  repeat' split at h
  all_goals simp_all

theorem rect_runCleanFinal (env : Env) (x y width height : Int) (weather : WMap)
    (b : Bool) (evs : List Ev)
    (h : runCleanFinal env x y width height weather = (.ok b, evs)) :
    Ev.rect (x + 2) (y + 2) (x + width - 2) (y + height - 2) 0 2 ∈ evs := by
  obtain ⟨hb, desc, di, bb, dls, u, devs, iconEvs, lw, lh, cursorEvs, cx,
    hdesc, hdi, hbb, hwrap, hdd, hicon, hlw, hlh, hcur, hevs⟩ :=
    runCleanFinal_shape env x y width height weather b evs h
  rw [hevs]
  exact List.mem_cons_self _ _

theorem runLayoutFix0815_two_keys (env : Env) (x y width height : Int) (w1 w2 : WMap)
    (h1 : w1 "wind_speed" = w2 "wind_speed")
    (h2 : w1 "wind_direction" = w2 "wind_direction") :
    runLayoutFix0815 env x y width height w1 = runLayoutFix0815 env x y width height w2 := by
  unfold runLayoutFix0815
  simp only [safe_get_value, h1, h2]

theorem runLayoutFix0817_two_keys (env : Env) (x y width height : Int) (w1 w2 : WMap)
    (h1 : w1 "wind_speed" = w2 "wind_speed")
    (h2 : w1 "wind_direction" = w2 "wind_direction") :
    runLayoutFix0817 env x y width height w1 = runLayoutFix0817 env x y width height w2 := by
  unfold runLayoutFix0817
  simp only [safe_get_value, h1, h2]

theorem runTextBoundsFix_two_keys (env : Env) (x y width height : Int) (w1 w2 : WMap)
    (h1 : w1 "wind_speed" = w2 "wind_speed")
    (h2 : w1 "wind_direction" = w2 "wind_direction") :
    runTextBoundsFix env x y width height w1 = runTextBoundsFix env x y width height w2 := by
  unfold runTextBoundsFix
  simp only [safe_get_value, h1, h2]

theorem runCleanFinal_two_keys (env : Env) (x y width height : Int) (w1 w2 : WMap)
    (h1 : w1 "wind_speed" = w2 "wind_speed")
    (h2 : w1 "wind_direction" = w2 "wind_direction") :
    runCleanFinal env x y width height w1 = runCleanFinal env x y width height w2 := by
  unfold runCleanFinal
  simp only [safe_get_value, h1, h2]


/-- C10: In all four versions, `get_required_data_sources` is the constant
function returning exactly `['smhi']`, independent of any state or input
(the embedded definitions take no argument because the source methods read
nothing); the four versions' implementations are equal. -/
theorem required_data_sources_constant :
    requiredSourcesLayoutFix0815 = ["smhi"] ∧
    requiredSourcesLayoutFix0817 = ["smhi"] ∧
    requiredSourcesTextBoundsFix = ["smhi"] ∧
    requiredSourcesCleanFinal = ["smhi"] ∧
    requiredSourcesLayoutFix0815 = requiredSourcesLayoutFix0817 ∧
    requiredSourcesLayoutFix0817 = requiredSourcesTextBoundsFix ∧
    requiredSourcesTextBoundsFix = requiredSourcesCleanFinal :=
  ⟨rfl, rfl, rfl, rfl, rfl, rfl, rfl⟩

/-- C7: For every version and every call, `render` keeps no persistent state
and mutates neither of its mapping arguments: the state-passed
`weather_data` and `context_data` come back unchanged (on the success path
and on the fallback path alike), and by construction the only other outputs
are the boolean result and the draw-call list. -/
theorem render_preserves_mappings (env : Env) (x y width height : Int)
    (weather context : WMap) :
    ((renderLayoutFix0815 env x y width height weather context).weather = weather ∧
     (renderLayoutFix0815 env x y width height weather context).context = context) ∧
    ((renderLayoutFix0817 env x y width height weather context).weather = weather ∧
     (renderLayoutFix0817 env x y width height weather context).context = context) ∧
    ((renderTextBoundsFix env x y width height weather context).weather = weather ∧
     (renderTextBoundsFix env x y width height weather context).context = context) ∧
    ((renderCleanFinal env x y width height weather context).weather = weather ∧
     (renderCleanFinal env x y width height weather context).context = context) :=
  ⟨renderWith_mappings runLayoutFix0815 env x y width height weather context,
   renderWith_mappings runLayoutFix0817 env x y width height weather context,
   renderWith_mappings runTextBoundsFix env x y width height weather context,
   renderWith_mappings runCleanFinal env x y width height weather context⟩

theorem Env.ext_of (e1 e2 : Env)
    (h1 : ∀ k, e1.fonts k = e2.fonts k)
    (h2 : ∀ q, e1.windDesc q = e2.windDesc q)
    (h3 : ∀ q, e1.windDirInfo q = e2.windDirInfo q)
    (h4 : ∀ n s, e1.systemIcon n s = e2.systemIcon n s)
    (h5 : ∀ n s, e1.windIcon n s = e2.windIcon n s)
    (h6 : ∀ t f, e1.textbbox t f = e2.textbbox t f)
    (h7 : ∀ t f, e1.textBounds t f = e2.textBounds t f)
    (h8 : ∀ x y w h s, e1.fallback x y w h s = e2.fallback x y w h s) :
    e1 = e2 := by
  cases e1
  cases e2
  simp only [Env.mk.injEq]
  exact ⟨funext h1, funext h2, funext h3,
    funext fun n => funext fun s => h4 n s,
    funext fun n => funext fun s => h5 n s,
    funext fun t => funext fun f => h6 t f,
    funext fun t => funext fun f => h7 t f,
    funext fun a => funext fun b => funext fun c => funext fun d => funext fun s => h8 a b c d s⟩

/-- C6: For every version, `render` is deterministic and single-pass: two
runs with identical arguments and identical responses from all the
collaborators (fonts, icon manager, text measurement, drawing backend,
fallback renderer) produce identical outcomes — the same draw-call
sequence and the same boolean result. -/
theorem render_deterministic (e1 e2 : Env)
    (h1 : ∀ k, e1.fonts k = e2.fonts k)
    (h2 : ∀ q, e1.windDesc q = e2.windDesc q)
    (h3 : ∀ q, e1.windDirInfo q = e2.windDirInfo q)
    (h4 : ∀ n s, e1.systemIcon n s = e2.systemIcon n s)
    (h5 : ∀ n s, e1.windIcon n s = e2.windIcon n s)
    (h6 : ∀ t f, e1.textbbox t f = e2.textbbox t f)
    (h7 : ∀ t f, e1.textBounds t f = e2.textBounds t f)
    (h8 : ∀ x y w h s, e1.fallback x y w h s = e2.fallback x y w h s)
    (x y width height : Int) (weather context : WMap) :
    renderLayoutFix0815 e1 x y width height weather context =
      renderLayoutFix0815 e2 x y width height weather context ∧
    renderLayoutFix0817 e1 x y width height weather context =
      renderLayoutFix0817 e2 x y width height weather context ∧
    renderTextBoundsFix e1 x y width height weather context =
      renderTextBoundsFix e2 x y width height weather context ∧
    renderCleanFinal e1 x y width height weather context =
      renderCleanFinal e2 x y width height weather context := by
  have he : e1 = e2 := Env.ext_of e1 e2 h1 h2 h3 h4 h5 h6 h7 h8
  subst he
  exact ⟨rfl, rfl, rfl, rfl⟩

/-- Witness for C6 at a concrete environment and concrete arguments. -/
theorem render_deterministic_witness :
    renderLayoutFix0815 envW 0 0 240 200 mapNone mapNone =
      renderLayoutFix0815 envW 0 0 240 200 mapNone mapNone ∧
    renderLayoutFix0817 envW 0 0 240 200 mapNone mapNone =
      renderLayoutFix0817 envW 0 0 240 200 mapNone mapNone ∧
    renderTextBoundsFix envW 0 0 240 200 mapNone mapNone =
      renderTextBoundsFix envW 0 0 240 200 mapNone mapNone ∧
    renderCleanFinal envW 0 0 240 200 mapNone mapNone =
      renderCleanFinal envW 0 0 240 200 mapNone mapNone :=
  render_deterministic envW envW
    (fun _ => rfl) (fun _ => rfl) (fun _ => rfl) (fun _ _ => rfl) (fun _ _ => rfl)
    (fun _ _ => rfl) (fun _ _ => rfl) (fun _ _ _ _ _ => rfl)
    0 0 240 200 mapNone mapNone

/-- C1: For every version and every input, the `try`/`except` structure of
`render` means: if the body raises (any `Except.error` outcome), `render`
returns the result of `render_fallback_content` on the same region and the
placeholder text `"Wind-data ej tillgänglig"` (with the fallback's draw
calls appended after the body's); if the body does not raise, `render`
returns `True`.  `render` itself is a total function into `RunResult`, so
it never propagates an exception to its caller. -/
theorem render_catches_and_falls_back (env : Env) (x y width height : Int)
    (weather context : WMap) :
    ((∀ e evs, runLayoutFix0815 env x y width height weather = (.error e, evs) →
        renderLayoutFix0815 env x y width height weather context =
          ⟨(env.fallback x y width height "Wind-data ej tillgänglig").1,
           evs ++ (env.fallback x y width height "Wind-data ej tillgänglig").2,
           weather, context⟩) ∧
     (∀ b evs, runLayoutFix0815 env x y width height weather = (.ok b, evs) →
        renderLayoutFix0815 env x y width height weather context =
          ⟨true, evs, weather, context⟩)) ∧
    ((∀ e evs, runLayoutFix0817 env x y width height weather = (.error e, evs) →
        renderLayoutFix0817 env x y width height weather context =
          ⟨(env.fallback x y width height "Wind-data ej tillgänglig").1,
           evs ++ (env.fallback x y width height "Wind-data ej tillgänglig").2,
           weather, context⟩) ∧
     (∀ b evs, runLayoutFix0817 env x y width height weather = (.ok b, evs) →
        renderLayoutFix0817 env x y width height weather context =
          ⟨true, evs, weather, context⟩)) ∧
    ((∀ e evs, runTextBoundsFix env x y width height weather = (.error e, evs) →
        renderTextBoundsFix env x y width height weather context =
          ⟨(env.fallback x y width height "Wind-data ej tillgänglig").1,
           evs ++ (env.fallback x y width height "Wind-data ej tillgänglig").2,
           weather, context⟩) ∧
     (∀ b evs, runTextBoundsFix env x y width height weather = (.ok b, evs) →
        renderTextBoundsFix env x y width height weather context =
          ⟨true, evs, weather, context⟩)) ∧
    ((∀ e evs, runCleanFinal env x y width height weather = (.error e, evs) →
        renderCleanFinal env x y width height weather context =
          ⟨(env.fallback x y width height "Wind-data ej tillgänglig").1,
           evs ++ (env.fallback x y width height "Wind-data ej tillgänglig").2,
           weather, context⟩) ∧
     (∀ b evs, runCleanFinal env x y width height weather = (.ok b, evs) →
        renderCleanFinal env x y width height weather context =
          ⟨true, evs, weather, context⟩)) := by
  refine ⟨⟨?_, ?_⟩, ⟨?_, ?_⟩, ⟨?_, ?_⟩, ⟨?_, ?_⟩⟩
  · intro e evs h
    exact renderWith_of_error runLayoutFix0815 env x y width height weather context e evs h
  · intro b evs h
    have hb := runLayoutFix0815_ok_true env x y width height weather b evs h
    subst hb
    exact renderWith_of_ok runLayoutFix0815 env x y width height weather context true evs h
  · intro e evs h
    exact renderWith_of_error runLayoutFix0817 env x y width height weather context e evs h
  · intro b evs h
    have hb := runLayoutFix0817_ok_true env x y width height weather b evs h
    subst hb
    exact renderWith_of_ok runLayoutFix0817 env x y width height weather context true evs h
  · intro e evs h
    exact renderWith_of_error runTextBoundsFix env x y width height weather context e evs h
  · intro b evs h
    have hb := runTextBoundsFix_ok_true env x y width height weather b evs h
    subst hb
    exact renderWith_of_ok runTextBoundsFix env x y width height weather context true evs h
  · intro e evs h
    exact renderWith_of_error runCleanFinal env x y width height weather context e evs h
  · intro b evs h
    have hb := runCleanFinal_ok_true env x y width height weather b evs h
    subst hb
    exact renderWith_of_ok runCleanFinal env x y width height weather context true evs h

/-- Witness for C1: a concrete environment whose description lookup raises;
the body errs and `render` returns the fallback's result and draw call. -/
theorem render_catches_witness :
    runLayoutFix0815 envThrow 0 0 240 200 mapNone = (.error 7, []) ∧
    renderLayoutFix0815 envThrow 0 0 240 200 mapNone mapNone =
      ⟨false, [Ev.text 0 0 "Wind-data ej tillgänglig" none 0], mapNone, mapNone⟩ := by
  constructor
  · rfl
  · have h :=
      ((render_catches_and_falls_back envThrow 0 0 240 200 mapNone mapNone).1.1) 7 [] rfl
    exact h

theorem renderWith_congr
    (body : Env → Int → Int → Int → Int → WMap → Except Exc Bool × List Ev)
    (env : Env) (x y width height : Int) (w1 w2 c1 c2 : WMap)
    (hb : body env x y width height w1 = body env x y width height w2) :
    (renderWith body env x y width height w1 c1).result =
      (renderWith body env x y width height w2 c2).result ∧
    (renderWith body env x y width height w1 c1).drawn =
      (renderWith body env x y width height w2 c2).drawn := by
  unfold renderWith
  rw [hb]
  rcases hres : body env x y width height w2 with ⟨r, evs⟩
  cases r <;> exact ⟨rfl, rfl⟩

/-- C5 (amended): the clean-final and text-bounds-fix versions issue a
rectangle-outline draw call for the module frame, a rectangle inscribed in
the module region (corners `(x+2, y+2)` and `(x+width-2, y+height-2)`);
the two layout-fix versions issue no rectangle draw call at all. -/
theorem frame_rectangle_versions :
    (∀ (env : Env) (x y width height : Int) (weather : WMap) (b : Bool) (evs : List Ev),
      runCleanFinal env x y width height weather = (.ok b, evs) →
      Ev.rect (x + 2) (y + 2) (x + width - 2) (y + height - 2) 0 2 ∈ evs) ∧
    (∀ (env : Env) (x y width height : Int) (weather : WMap) (b : Bool) (evs : List Ev),
      runTextBoundsFix env x y width height weather = (.ok b, evs) →
      Ev.rect (x + 2) (y + 2) (x + width - 2) (y + height - 2) 0 2 ∈ evs) ∧
    (∀ (env : Env) (x y width height : Int) (weather : WMap) (r : Except Exc Bool)
      (evs : List Ev),
      runLayoutFix0815 env x y width height weather = (r, evs) →
      ∀ ev ∈ evs, isRectEv ev = false) ∧
    (∀ (env : Env) (x y width height : Int) (weather : WMap) (r : Except Exc Bool)
      (evs : List Ev),
      runLayoutFix0817 env x y width height weather = (r, evs) →
      ∀ ev ∈ evs, isRectEv ev = false) :=
  ⟨fun env x y width height weather b evs h =>
      rect_runCleanFinal env x y width height weather b evs h,
   fun env x y width height weather b evs h =>
      rect_runTextBoundsFix env x y width height weather b evs h,
   fun env x y width height weather r evs h =>
      norect_runLayoutFix0815 env x y width height weather r evs h,
   fun env x y width height weather r evs h =>
      norect_runLayoutFix0817 env x y width height weather r evs h⟩

/-- Counterexample to C5 as stated: the 2025-08-15 layout-fix version's
`render` succeeds on a concrete input and issues draw calls, none of which
is a rectangle call. -/
theorem frame_rectangle_counterexample :
    (renderLayoutFix0815 envW 0 0 240 200 mapNone mapNone).result = true ∧
    ((renderLayoutFix0815 envW 0 0 240 200 mapNone mapNone).drawn.filter isRectEv) = [] ∧
    (renderLayoutFix0815 envW 0 0 240 200 mapNone mapNone).drawn ≠ [] :=
  ⟨by decide, by decide, by decide⟩

/-- Witness for C5 (amended) at a concrete environment. -/
theorem frame_rectangle_witness :
    Ev.rect 2 2 238 198 0 2 ∈ (runTextBoundsFix envW 0 0 240 200 mapNone).2 :=
  frame_rectangle_versions.2.1 envW 0 0 240 200 mapNone true
    (runTextBoundsFix envW 0 0 240 200 mapNone).2 rfl

/-- C2 (amended): only the clean-final version applies the greedy
line-wrapping routine `wrap2_ellips` to the Swedish wind description before
drawing it — its successful runs draw exactly the wrapped lines between the
m/s text and the direction label; the other three versions draw
`speed_description` verbatim as one single text call, never wrapped. -/
theorem only_clean_final_wraps_description :
    (∀ (env : Env) (x y width height : Int) (weather : WMap) (b : Bool) (evs : List Ev),
      runCleanFinal env x y width height weather = (.ok b, evs) →
      ∃ desc di dls rest,
        env.windDesc (safe_get_value weather "wind_speed" 0) = .ok desc ∧
        env.windDirInfo (safe_get_value weather "wind_direction" 0) = .ok di ∧
        wrap2_ellips (fun t => text_width env t (fontGet2 env "small_main" "small_desc"))
          desc 172 2 = .ok dls ∧
        textsOf evs =
          msTextOf (safe_get_value weather "wind_speed" 0) :: (dls ++ rest ++ [di.1]) ∧
        (rest = [] ∨ rest = ["→"])) ∧
    (∀ (env : Env) (x y width height : Int) (weather : WMap) (b : Bool) (evs : List Ev),
      runLayoutFix0815 env x y width height weather = (.ok b, evs) →
      ∃ desc di,
        env.windDesc (safe_get_value weather "wind_speed" 0) = .ok desc ∧
        env.windDirInfo (safe_get_value weather "wind_direction" 0) = .ok di ∧
        textsOf evs = [msTextOf (safe_get_value weather "wind_speed" 0), desc, di.1]) ∧
    (∀ (env : Env) (x y width height : Int) (weather : WMap) (b : Bool) (evs : List Ev),
      runLayoutFix0817 env x y width height weather = (.ok b, evs) →
      ∃ desc di,
        env.windDesc (safe_get_value weather "wind_speed" 0) = .ok desc ∧
        env.windDirInfo (safe_get_value weather "wind_direction" 0) = .ok di ∧
        textsOf evs = [msTextOf (safe_get_value weather "wind_speed" 0), desc, di.1]) ∧
    (∀ (env : Env) (x y width height : Int) (weather : WMap) (b : Bool) (evs : List Ev),
      runTextBoundsFix env x y width height weather = (.ok b, evs) →
      ∃ desc di,
        env.windDesc (safe_get_value weather "wind_speed" 0) = .ok desc ∧
        env.windDirInfo (safe_get_value weather "wind_direction" 0) = .ok di ∧
        textsOf evs = [msTextOf (safe_get_value weather "wind_speed" 0), desc, di.1]) :=
  ⟨fun env x y width height weather b evs h =>
      texts_runCleanFinal env x y width height weather b evs h,
   fun env x y width height weather b evs h =>
      texts_runLayoutFix0815 env x y width height weather b evs h,
   fun env x y width height weather b evs h =>
      texts_runLayoutFix0817 env x y width height weather b evs h,
   fun env x y width height weather b evs h =>
      texts_runTextBoundsFix env x y width height weather b evs h⟩

/-- Counterexample to C2 as stated: with 30 pixels per character, the
2025-08-15 layout-fix version draws the description `"aaa bbb"` as one
unbroken text call even though the repository's (only) wrapping routine, at
the clean-final constants, would split that very description in two. -/
theorem wrap_claim_counterexample :
    textsOf (renderLayoutFix0815 envConst 0 0 240 200 mapNone mapNone).drawn =
      ["0.0 m/s", "aaa bbb", "N"] ∧
    wrap2_ellips (fun t => text_width envConst t (fontGet2 envConst "small_main" "small_desc"))
      "aaa bbb" 172 2 = .ok ["aaa", "bbb"] ∧
    "aaa" ∉ textsOf (renderLayoutFix0815 envConst 0 0 240 200 mapNone mapNone).drawn :=
  ⟨by decide, rfl, by decide⟩

/-- Witness for C2 (amended) at a concrete environment. -/
theorem only_clean_final_wraps_witness :
    ∃ desc di dls rest,
      envW.windDesc (safe_get_value mapNone "wind_speed" 0) = .ok desc ∧
      envW.windDirInfo (safe_get_value mapNone "wind_direction" 0) = .ok di ∧
      wrap2_ellips (fun t => text_width envW t (fontGet2 envW "small_main" "small_desc"))
        desc 172 2 = .ok dls ∧
      textsOf (runCleanFinal envW 0 0 240 200 mapNone).2 =
        msTextOf (safe_get_value mapNone "wind_speed" 0) :: (dls ++ rest ++ [di.1]) ∧
      (rest = [] ∨ rest = ["→"]) :=
  only_clean_final_wraps_description.1 envW 0 0 240 200 mapNone true
    (runCleanFinal envW 0 0 240 200 mapNone).2 rfl

/-- C4 (amended): every version's `render` reads exactly two numeric fields
from the weather mapping — `wind_speed` and `wind_direction`, each via
`safe_get_value` with default `0.0` (visible in the definitions of the four
bodies); consequently two weather mappings agreeing on those two keys give
identical body outcomes and identical rendered output.  The direction is
converted to display text through the icon manager's
`get_wind_direction_info` (short label plus the cardinal code used to fetch
the arrow icon), and the speed through `get_wind_description_swedish` for
the description — but the speed is additionally formatted directly by
`render` itself into the `"X.X m/s"` display string (`msTextOf`), not
through the icon manager. -/
theorem reads_two_fields_and_conversions :
    (∀ (env : Env) (x y width height : Int) (w1 w2 : WMap),
      w1 "wind_speed" = w2 "wind_speed" → w1 "wind_direction" = w2 "wind_direction" →
      runLayoutFix0815 env x y width height w1 = runLayoutFix0815 env x y width height w2 ∧
      runLayoutFix0817 env x y width height w1 = runLayoutFix0817 env x y width height w2 ∧
      runTextBoundsFix env x y width height w1 = runTextBoundsFix env x y width height w2 ∧
      runCleanFinal env x y width height w1 = runCleanFinal env x y width height w2) ∧
    (∀ (env : Env) (x y width height : Int) (w1 w2 c1 c2 : WMap),
      w1 "wind_speed" = w2 "wind_speed" → w1 "wind_direction" = w2 "wind_direction" →
      ((renderLayoutFix0815 env x y width height w1 c1).result =
         (renderLayoutFix0815 env x y width height w2 c2).result ∧
       (renderLayoutFix0815 env x y width height w1 c1).drawn =
         (renderLayoutFix0815 env x y width height w2 c2).drawn) ∧
      ((renderLayoutFix0817 env x y width height w1 c1).result =
         (renderLayoutFix0817 env x y width height w2 c2).result ∧
       (renderLayoutFix0817 env x y width height w1 c1).drawn =
         (renderLayoutFix0817 env x y width height w2 c2).drawn) ∧
      ((renderTextBoundsFix env x y width height w1 c1).result =
         (renderTextBoundsFix env x y width height w2 c2).result ∧
       (renderTextBoundsFix env x y width height w1 c1).drawn =
         (renderTextBoundsFix env x y width height w2 c2).drawn) ∧
      ((renderCleanFinal env x y width height w1 c1).result =
         (renderCleanFinal env x y width height w2 c2).result ∧
       (renderCleanFinal env x y width height w1 c1).drawn =
         (renderCleanFinal env x y width height w2 c2).drawn)) ∧
    (∀ (env : Env) (x y width height : Int) (weather : WMap) (b : Bool) (evs : List Ev),
      (runLayoutFix0815 env x y width height weather = (.ok b, evs) ∨
       runLayoutFix0817 env x y width height weather = (.ok b, evs) ∨
       runTextBoundsFix env x y width height weather = (.ok b, evs) ∨
       runCleanFinal env x y width height weather = (.ok b, evs)) →
      ∃ desc di,
        env.windDesc (safe_get_value weather "wind_speed" 0) = .ok desc ∧
        env.windDirInfo (safe_get_value weather "wind_direction" 0) = .ok di ∧
        msTextOf (safe_get_value weather "wind_speed" 0) ∈ textsOf evs ∧
        di.1 ∈ textsOf evs) := by
  refine ⟨?_, ?_, ?_⟩
  · intro env x y width height w1 w2 h1 h2
    exact ⟨runLayoutFix0815_two_keys env x y width height w1 w2 h1 h2,
      runLayoutFix0817_two_keys env x y width height w1 w2 h1 h2,
      runTextBoundsFix_two_keys env x y width height w1 w2 h1 h2,
      runCleanFinal_two_keys env x y width height w1 w2 h1 h2⟩
  · intro env x y width height w1 w2 c1 c2 h1 h2
    exact ⟨renderWith_congr runLayoutFix0815 env x y width height w1 w2 c1 c2
        (runLayoutFix0815_two_keys env x y width height w1 w2 h1 h2),
      renderWith_congr runLayoutFix0817 env x y width height w1 w2 c1 c2
        (runLayoutFix0817_two_keys env x y width height w1 w2 h1 h2),
      renderWith_congr runTextBoundsFix env x y width height w1 w2 c1 c2
        (runTextBoundsFix_two_keys env x y width height w1 w2 h1 h2),
      renderWith_congr runCleanFinal env x y width height w1 w2 c1 c2
        (runCleanFinal_two_keys env x y width height w1 w2 h1 h2)⟩
  · intro env x y width height weather b evs hrun
    rcases hrun with h | h | h | h
    · obtain ⟨desc, di, hdesc, hdi, htexts⟩ :=
        texts_runLayoutFix0815 env x y width height weather b evs h
      exact ⟨desc, di, hdesc, hdi, by rw [htexts]; simp, by rw [htexts]; simp⟩
    · obtain ⟨desc, di, hdesc, hdi, htexts⟩ :=
        texts_runLayoutFix0817 env x y width height weather b evs h
      exact ⟨desc, di, hdesc, hdi, by rw [htexts]; simp, by rw [htexts]; simp⟩
    · obtain ⟨desc, di, hdesc, hdi, htexts⟩ :=
        texts_runTextBoundsFix env x y width height weather b evs h
      exact ⟨desc, di, hdesc, hdi, by rw [htexts]; simp, by rw [htexts]; simp⟩
    · obtain ⟨desc, di, dls, rest, hdesc, hdi, hwrap, htexts, hrest⟩ :=
        texts_runCleanFinal env x y width height weather b evs h
      exact ⟨desc, di, hdesc, hdi, by rw [htexts]; simp, by rw [htexts]; simp⟩

/-- Counterexample to C4 as stated ("converts them to display strings only
through the injected icon manager"): with an icon manager whose conversion
functions are constant, varying only `wind_speed` still changes a drawn
display string (`"5.0 m/s"` vs `"0.0 m/s"`), because `render` formats the
speed directly with an f-string, not through the icon manager. -/
theorem conversion_counterexample :
    (∀ q, envConst.windDesc q = .ok "aaa bbb") ∧
    (∀ q, envConst.windDirInfo q = .ok ("N", "n")) ∧
    mapW5 "wind_direction" = mapNone "wind_direction" ∧
    textsOf (renderLayoutFix0815 envConst 0 0 240 200 mapW5 mapNone).drawn =
      ["5.0 m/s", "aaa bbb", "N"] ∧
    textsOf (renderLayoutFix0815 envConst 0 0 240 200 mapNone mapNone).drawn =
      ["0.0 m/s", "aaa bbb", "N"] ∧
    textsOf (renderLayoutFix0815 envConst 0 0 240 200 mapW5 mapNone).drawn ≠
      textsOf (renderLayoutFix0815 envConst 0 0 240 200 mapNone mapNone).drawn :=
  ⟨fun _ => rfl, fun _ => rfl, rfl, by decide, by decide, by decide⟩

/-- Witness for C4 (amended): two concrete mappings agreeing on the two wind
keys (but not elsewhere) yield identical body outcomes. -/
theorem reads_two_fields_witness :
    mapW5 "wind_speed" = mapW5b "wind_speed" ∧
    mapW5 "wind_direction" = mapW5b "wind_direction" ∧
    (runLayoutFix0815 envConst 0 0 240 200 mapW5 = runLayoutFix0815 envConst 0 0 240 200 mapW5b ∧
     runLayoutFix0817 envConst 0 0 240 200 mapW5 = runLayoutFix0817 envConst 0 0 240 200 mapW5b ∧
     runTextBoundsFix envConst 0 0 240 200 mapW5 = runTextBoundsFix envConst 0 0 240 200 mapW5b ∧
     runCleanFinal envConst 0 0 240 200 mapW5 = runCleanFinal envConst 0 0 240 200 mapW5b) :=
  ⟨rfl, rfl, reads_two_fields_and_conversions.1 envConst 0 0 240 200 mapW5 mapW5b rfl rfl⟩

theorem mem_dropWhile_of_neg (p : Char → Bool) (c : Char) (hp : p c = false) :
    ∀ l : List Char, c ∈ l → c ∈ l.dropWhile p := by
  intro l
  induction l with
  | nil => intro h; exact absurd h (List.not_mem_nil c)
  | cons a t ih =>
    intro h
    rw [List.dropWhile_cons]
    split
    · rcases List.mem_cons.mp h with rfl | hmem
      · rename_i hpa; rw [hp] at hpa; exact absurd hpa (by simp)
      · exact ih hmem
    · exact h

theorem mem_pstrip (c : Char) (hp : isPySpace c = false) (l : List Char) (hc : c ∈ l) :
    c ∈ pstrip l := by
  unfold pstrip rtrim ltrim
  have h1 : c ∈ l.dropWhile isPySpace := mem_dropWhile_of_neg isPySpace c hp l hc
  have h2 : c ∈ (l.dropWhile isPySpace).reverse := List.mem_reverse.mpr h1
  have h3 := mem_dropWhile_of_neg isPySpace c hp _ h2
  exact List.mem_reverse.mpr h3

theorem pstrip_ne_nil (c : Char) (hp : isPySpace c = false) (l : List Char) (hc : c ∈ l) :
    pstrip l ≠ [] :=
  List.ne_nil_of_mem (mem_pstrip c hp l hc)

theorem splitWsAux_sound :
    ∀ (l acc : List Char), (∀ c ∈ acc, isPySpace c = false) →
      ∀ w ∈ splitWsAux l acc, w ≠ [] ∧ ∀ c ∈ w, isPySpace c = false := by
  intro l
  induction l with
  | nil =>
    intro acc hacc w hw
    unfold splitWsAux at hw
    split at hw
    · exact absurd hw (List.not_mem_nil w)
    · rename_i hne
      rcases List.mem_singleton.mp hw with rfl
      refine ⟨?_, ?_⟩
      · simp only [ne_eq, List.reverse_eq_nil_iff]
        simpa [List.isEmpty_iff] using hne
      · intro c hc
        exact hacc c (List.mem_reverse.mp hc)
  | cons a t ih =>
    intro acc hacc w hw
    unfold splitWsAux at hw
    split at hw
    · rename_i hsp
      split at hw
      · exact ih [] (by intro c hc; exact absurd hc (List.not_mem_nil c)) w hw
      · rename_i hne
        rcases List.mem_cons.mp hw with rfl | hmem
        · refine ⟨?_, ?_⟩
          · simp only [ne_eq, List.reverse_eq_nil_iff]
            simpa [List.isEmpty_iff] using hne
          · intro c hc
            exact hacc c (List.mem_reverse.mp hc)
        · exact ih [] (by intro c hc; exact absurd hc (List.not_mem_nil c)) w hmem
    · rename_i hsp
      refine ih (a :: acc) ?_ w hw
      intro c hc
      rcases List.mem_cons.mp hc with rfl | hmem
      · simpa using hsp
      · exact hacc c hmem

theorem splitWs_sound (l : List Char) :
    ∀ w ∈ splitWs l, w ≠ [] ∧ ∀ c ∈ w, isPySpace c = false :=
  splitWsAux_sound l [] (by intro c hc; exact absurd hc (List.not_mem_nil c))

theorem wrapLoop_le (mwl : List Char → Except Exc Int) (max_w max_lines : Int)
    (hml : 1 ≤ max_lines) :
    ∀ (rem lines : List (List Char)) (cur : List Char) (ls : List (List Char)),
      wrapLoop mwl max_w max_lines rem lines cur = .ok ls →
      ls.length ≤ max_lines.toNat := by
  intro rem
  induction rem with
  | nil =>
    intro lines cur ls h
    unfold wrapLoop at h
    simp only [Except.ok.injEq] at h
    rw [← h]
    simp [List.length_take]
  | cons w ws ih =>
    intro lines cur ls h
    unfold wrapLoop at h
    cases hmw : mwl (pstrip (cur ++ ' ' :: w)) with
    | error e => rw [hmw] at h; simp at h
    | ok tw =>
    rw [hmw] at h
    simp only [] at h
    repeat' split at h
    all_goals first
      | exact ih _ _ ls h
      | (simp only [Except.ok.injEq] at h
         rw [← h]
         simp only [List.length_append, List.length_singleton]
         omega)
      | simp at h
    all_goals (
      rw [← h]
      simp only [List.length_append, List.length_cons, List.length_singleton,
        List.length_nil] at *
      omega)

theorem wrapLoop_ne_nil (mwl : List Char → Except Exc Int) (max_w max_lines : Int)
    (hml : 1 ≤ max_lines) :
    ∀ (rem lines : List (List Char)) (cur : List Char) (ls : List (List Char)),
      (∀ w ∈ rem, ∃ c ∈ w, isPySpace c = false) →
      (lines ≠ [] ∨ cur ≠ [] ∨ rem ≠ []) →
      wrapLoop mwl max_w max_lines rem lines cur = .ok ls →
      ls ≠ [] := by
  intro rem
  induction rem with
  | nil =>
    intro lines cur ls hwords hne h
    unfold wrapLoop at h
    simp only [Except.ok.injEq] at h
    rw [← h]
    have h1 : 1 ≤ max_lines.toNat := by omega
    rcases hne with hl | hc | hr
    · split
      · simp only [ne_eq, List.take_eq_nil_iff]
        push_neg
        refine ⟨by omega, by simp⟩
      · simp only [ne_eq, List.take_eq_nil_iff]
        push_neg
        exact ⟨by omega, hl⟩
    · rw [if_pos hc]
      simp only [ne_eq, List.take_eq_nil_iff]
      push_neg
      refine ⟨by omega, by simp⟩
    · exact absurd rfl hr
  | cons w ws ih =>
    intro lines cur ls hwords hne h
    unfold wrapLoop at h
    cases hmw : mwl (pstrip (cur ++ ' ' :: w)) with
    | error e => rw [hmw] at h; simp at h
    | ok tw =>
    rw [hmw] at h
    simp only [] at h
    obtain ⟨c, hcw, hcns⟩ := hwords w (List.mem_cons_self w ws)
    have hwne : w ≠ [] := List.ne_nil_of_mem hcw
    have htest : pstrip (cur ++ ' ' :: w) ≠ [] :=
      pstrip_ne_nil c hcns _ (List.mem_append_right _ (List.mem_cons_of_mem _ hcw))
    repeat' split at h
    all_goals first
      | exact ih _ _ ls
          (fun v hv => hwords v (List.mem_cons_of_mem w hv))
          (Or.inr (Or.inl htest)) h
      | exact ih _ _ ls
          (fun v hv => hwords v (List.mem_cons_of_mem w hv))
          (Or.inr (Or.inl hwne)) h
      | (simp only [Except.ok.injEq] at h
         rw [← h]
         simp)
      | simp at h

theorem wrap2_ellips_len (mw : String → Except Exc Int) (text : String)
    (max_w max_lines : Int) (hml : 1 ≤ max_lines) (ls : List String)
    (h : wrap2_ellips mw text max_w max_lines = .ok ls) :
    ls ≠ [] ∧ ls.length ≤ max_lines.toNat := by
  unfold wrap2_ellips at h
  simp only [] at h
  split at h
  · simp only [Except.ok.injEq] at h
    rw [← h]
    refine ⟨by simp, by simp; omega⟩
  · rename_i hne
    cases hloop : wrapLoop (fun l => mw (String.mk l)) max_w max_lines
        (splitWs text.data) [] [] with
    | error e => rw [hloop] at h; simp [Except.map] at h
    | ok ls0 =>
      rw [hloop] at h
      simp only [Except.map, Except.ok.injEq] at h
      have hwords : ∀ w ∈ splitWs text.data, ∃ c ∈ w, isPySpace c = false := by
        intro w hw
        obtain ⟨hwne, hns⟩ := splitWs_sound text.data w hw
        rcases w with _ | ⟨c, t⟩
        · exact absurd rfl hwne
        · exact ⟨c, by simp, hns c (by simp)⟩
      have hnil : splitWs text.data ≠ [] := by
        simpa [List.isEmpty_iff] using hne
      have h1 := wrapLoop_ne_nil (fun l => mw (String.mk l)) max_w max_lines hml
        (splitWs text.data) [] [] ls0 hwords (Or.inr (Or.inr hnil)) hloop
      have h2 := wrapLoop_le (fun l => mw (String.mk l)) max_w max_lines hml
        (splitWs text.data) [] [] ls0 hloop
      rw [← h]
      constructor
      · simpa using h1
      · simpa using h2

/-- C8: for every measure, text, maximum width and `max_lines ≥ 1`, when
`wrap2_ellips` returns (no exception from the measure), it returns a
non-empty list of at most `max_lines` lines. -/
theorem wrap2_ellips_line_count (mw : String → Except Exc Int) (text : String)
    (max_w max_lines : Int) (hml : 1 ≤ max_lines) (ls : List String)
    (h : wrap2_ellips mw text max_w max_lines = .ok ls) :
    ls ≠ [] ∧ ls.length ≤ max_lines.toNat :=
  wrap2_ellips_len mw text max_w max_lines hml ls h

/-- Witness for C8 on a concrete text and measure (ten pixels per
character): two lines come back, non-empty and within the limit. -/
theorem wrap2_ellips_line_count_witness :
    wrap2_ellips (fun s => .ok (10 * (s.data.length : Int))) "hello world" 40 2 =
      .ok ["hello", "wor…"] ∧
    (["hello", "wor…"] ≠ [] ∧ (["hello", "wor…"] : List String).length ≤ (2 : Int).toNat) := by
  have h : wrap2_ellips (fun s => .ok (10 * (s.data.length : Int))) "hello world" 40 2 =
      .ok ["hello", "wor…"] := rfl
  exact ⟨h, wrap2_ellips_line_count (fun s => .ok (10 * (s.data.length : Int)))
    "hello world" 40 2 (by decide) ["hello", "wor…"] h⟩

theorem joinSp_cons (w : List Char) (ws : List (List Char)) (h : ws ≠ []) :
    joinSp (w :: ws) = w ++ ' ' :: joinSp ws := by
  cases ws with
  | nil => exact absurd rfl h
  | cons v vs => rfl

theorem joinSp_head (v0 : List Char) (p : List (List Char)) :
    ∃ R, joinSp (v0 :: p) = v0 ++ R := by
  cases p with
  | nil => exact ⟨[], by simp [joinSp]⟩
  | cons v vs => exact ⟨' ' :: joinSp (v :: vs), rfl⟩

theorem joinSp_ne_nil (p : List (List Char)) (hp : p ≠ [])
    (h : ∀ v ∈ p, v ≠ []) : joinSp p ≠ [] := by
  cases p with
  | nil => exact absurd rfl hp
  | cons v0 p' =>
    obtain ⟨R, hR⟩ := joinSp_head v0 p'
    rw [hR]
    have hv0 : v0 ≠ [] := h v0 (by simp)
    simp [hv0]

theorem joinSp_append (p q : List (List Char)) (hp : p ≠ []) (hq : q ≠ []) :
    joinSp (p ++ q) = joinSp p ++ ' ' :: joinSp q := by
  induction p with
  | nil => exact absurd rfl hp
  | cons v p' ih =>
    cases p' with
    | nil =>
      rw [List.singleton_append, joinSp_cons v q hq]
      rfl
    | cons u p'' =>
      have h1 : joinSp (v :: (u :: p'' ++ q)) = v ++ ' ' :: joinSp (u :: p'' ++ q) :=
        joinSp_cons v _ (by simp)
      calc joinSp ((v :: u :: p'') ++ q) = v ++ ' ' :: joinSp (u :: p'' ++ q) := h1
        _ = v ++ ' ' :: (joinSp (u :: p'') ++ ' ' :: joinSp q) := by
            rw [ih (by simp)]
        _ = joinSp (v :: u :: p'') ++ ' ' :: joinSp q := by
            rw [joinSp_cons v (u :: p'') (by simp)]
            simp

theorem joinSp_prefix_append (p q : List (List Char)) (hp : p ≠ []) :
    joinSp p <+: joinSp (p ++ q) := by
  cases q with
  | nil => rw [List.append_nil]
  | cons v vs =>
    rw [joinSp_append p (v :: vs) hp (by simp)]
    exact List.prefix_append _ _

theorem ltrim_append_of_head (w l : List Char) (hw : w ≠ [])
    (hns : ∀ c ∈ w, isPySpace c = false) : ltrim (w ++ l) = w ++ l := by
  obtain ⟨c, t, rfl⟩ : ∃ c t, w = c :: t := by
    cases w with
    | nil => exact absurd rfl hw
    | cons c t => exact ⟨c, t, rfl⟩
  unfold ltrim
  rw [List.cons_append, List.dropWhile_cons]
  simp [hns c (by simp)]

theorem rtrim_append_of_last (l w : List Char) (hw : w ≠ [])
    (hns : ∀ c ∈ w, isPySpace c = false) : rtrim (l ++ w) = l ++ w := by
  obtain ⟨c, t, hrev⟩ : ∃ c t, w.reverse = c :: t := by
    cases hrw : w.reverse with
    | nil => exact absurd (by simpa using congrArg List.reverse hrw) hw
    | cons c t => exact ⟨c, t, rfl⟩
  have hc : c ∈ w := by
    rw [← List.mem_reverse, hrev]
    simp
  have h1 : (l ++ w).reverse = c :: (t ++ l.reverse) := by
    rw [List.reverse_append, hrev]
    rfl
  have h2 : List.dropWhile isPySpace ((l ++ w).reverse) = (l ++ w).reverse := by
    rw [h1, List.dropWhile_cons, hns c hc]
    simp
  unfold rtrim
  rw [h2, List.reverse_reverse]

theorem pstrip_space_word (w : List Char) (hw : w ≠ [])
    (hns : ∀ c ∈ w, isPySpace c = false) : pstrip (' ' :: w) = w := by
  unfold pstrip
  have h2 := ltrim_append_of_head w [] hw hns
  rw [List.append_nil] at h2
  unfold ltrim at h2
  have h1 : ltrim (' ' :: w) = w := by
    unfold ltrim
    rw [List.dropWhile_cons]
    have hsp : isPySpace ' ' = true := by decide
    rw [hsp]
    simp [h2]
  rw [h1]
  have h3 := rtrim_append_of_last [] w hw hns
  rw [List.nil_append] at h3
  exact h3

theorem pstrip_join_word (p : List (List Char)) (hp : p ≠ [])
    (hps : ∀ v ∈ p, v ≠ [] ∧ ∀ c ∈ v, isPySpace c = false)
    (w : List Char) (hw : w ≠ []) (hwns : ∀ c ∈ w, isPySpace c = false) :
    pstrip (joinSp p ++ ' ' :: w) = joinSp p ++ ' ' :: w := by
  obtain ⟨v0, p', rfl⟩ : ∃ v0 p', p = v0 :: p' := by
    cases p with
    | nil => exact absurd rfl hp
    | cons v0 p' => exact ⟨v0, p', rfl⟩
  obtain ⟨R, hR⟩ := joinSp_head v0 p'
  obtain ⟨hv0, hv0ns⟩ := hps v0 (by simp)
  unfold pstrip
  have h1 : ltrim (joinSp (v0 :: p') ++ ' ' :: w) = joinSp (v0 :: p') ++ ' ' :: w := by
    rw [hR, List.append_assoc]
    rw [ltrim_append_of_head v0 (R ++ ' ' :: w) hv0 hv0ns]
  rw [h1]
  have h2 : joinSp (v0 :: p') ++ ' ' :: w = (joinSp (v0 :: p') ++ [' ']) ++ w := by simp
  rw [h2, rtrim_append_of_last _ w hw hwns]
  try simp

theorem wrapLoop_all_fit (pm : List Char → Int)
    (hmono : ∀ a b : List Char, a <+: b → pm a ≤ pm b)
    (max_w max_lines : Int) (hml : 1 ≤ max_lines)
    (words : List (List Char))
    (hsound : ∀ w ∈ words, w ≠ [] ∧ ∀ c ∈ w, isPySpace c = false)
    (hfit : pm (joinSp words) ≤ max_w) :
    ∀ (rem p : List (List Char)), p ≠ [] → words = p ++ rem →
      wrapLoop (fun l => .ok (pm l)) max_w max_lines rem [] (joinSp p) =
        .ok [joinSp words] := by
  intro rem
  induction rem with
  | nil =>
    intro p hp hw
    rw [List.append_nil] at hw
    subst hw
    unfold wrapLoop
    have hne : joinSp words ≠ [] :=
      joinSp_ne_nil words hp (fun v hv => (hsound v hv).1)
    rw [if_pos hne]
    obtain ⟨m, hm⟩ : ∃ m, max_lines.toNat = m + 1 := ⟨max_lines.toNat - 1, by omega⟩
    rw [hm]
    simp [List.take]
  | cons w ws ih =>
    intro p hp hw
    have hsw := hsound w (by rw [hw]; simp)
    have hpsound : ∀ v ∈ p, v ≠ [] ∧ ∀ c ∈ v, isPySpace c = false := by
      intro v hv
      exact hsound v (by rw [hw]; exact List.mem_append_left _ hv)
    have hps : pstrip (joinSp p ++ ' ' :: w) = joinSp p ++ ' ' :: w :=
      pstrip_join_word p hp hpsound w hsw.1 hsw.2
    have hjs : joinSp (p ++ [w]) = joinSp p ++ ' ' :: w := by
      rw [joinSp_append p [w] hp (by simp)]
      rfl
    have hassoc : words = (p ++ [w]) ++ ws := by rw [hw]; simp
    have hpre : (joinSp p ++ ' ' :: w) <+: joinSp words := by
      rw [← hjs, hassoc]
      exact joinSp_prefix_append (p ++ [w]) ws (by simp)
    have hfits : pm (pstrip (joinSp p ++ ' ' :: w)) ≤ max_w := by
      rw [hps]
      exact le_trans (hmono _ _ hpre) hfit
    unfold wrapLoop
    simp only []
    rw [if_pos hfits]
    rw [hps, ← hjs]
    exact ih (p ++ [w]) (by simp) hassoc

/-- C9: if the text has at least one word, the measure is pure and monotone
under prefix extension, and the whitespace-normalized text (its words
joined by single spaces) measures at most `max_w`, then `wrap2_ellips`
returns exactly one line, equal to the whitespace-normalized text — in
particular with no ellipsis appended. -/
theorem wrap2_ellips_single_line (pm : List Char → Int)
    (hmono : ∀ a b : List Char, a <+: b → pm a ≤ pm b)
    (text : String) (max_w max_lines : Int) (hml : 1 ≤ max_lines)
    (hwords : splitWs text.data ≠ [])
    (hfit : pm (joinSp (splitWs text.data)) ≤ max_w) :
    wrap2_ellips (fun s => .ok (pm s.data)) text max_w max_lines =
      .ok [pnormalize text] := by
  unfold wrap2_ellips
  simp only []
  rw [if_neg (by simpa [List.isEmpty_iff] using hwords)]
  obtain ⟨w0, ws, hw⟩ : ∃ w0 ws, splitWs text.data = w0 :: ws := by
    cases hsp : splitWs text.data with
    | nil => exact absurd hsp hwords
    | cons w0 ws => exact ⟨w0, ws, rfl⟩
  have hsound : ∀ w ∈ w0 :: ws, w ≠ [] ∧ ∀ c ∈ w, isPySpace c = false := by
    rw [← hw]
    exact splitWs_sound text.data
  have hfit' : pm (joinSp (w0 :: ws)) ≤ max_w := by rw [← hw]; exact hfit
  have hs0 := hsound w0 (by simp)
  rw [hw]
  unfold wrapLoop
  have hps0 : pstrip ([] ++ ' ' :: w0) = w0 := by
    rw [List.nil_append]
    exact pstrip_space_word w0 hs0.1 hs0.2
  have hpre0 : w0 <+: joinSp (w0 :: ws) := by
    obtain ⟨R, hR⟩ := joinSp_head w0 ws
    rw [hR]
    exact List.prefix_append _ _
  have hfits0 : pm (pstrip ((joinSp []) ++ ' ' :: w0)) ≤ max_w := by
    have : joinSp ([] : List (List Char)) = [] := rfl
    rw [this, hps0]
    exact le_trans (hmono _ _ hpre0) hfit'
  simp only []
  rw [show joinSp ([] : List (List Char)) = [] from rfl] at hfits0
  rw [if_pos hfits0]
  rw [hps0]
  have hmain := wrapLoop_all_fit pm hmono max_w max_lines hml (w0 :: ws) hsound hfit'
    ws [w0] (by simp) rfl
  have hjw0 : joinSp [w0] = w0 := rfl
  rw [← hjw0]
  rw [hmain]
  unfold pnormalize
  rw [hw]
  rfl

/-- Witness for C9 on the Swedish description `"Måttlig  vind"` (with a
doubled space) and a character-count measure: one line, the normalized
text, comes back. -/
theorem wrap2_ellips_single_line_witness :
    splitWs "Måttlig  vind".data ≠ [] ∧
    pmLen (joinSp (splitWs "Måttlig  vind".data)) ≤ 12 ∧
    wrap2_ellips (fun s => .ok (pmLen s.data)) "Måttlig  vind" 12 2 =
      .ok [pnormalize "Måttlig  vind"] := by
  refine ⟨by decide, by decide, ?_⟩
  exact wrap2_ellips_single_line pmLen
    (fun a b h => Int.ofNat_le.mpr h.length_le)
    "Måttlig  vind" 12 2 (by decide) (by decide) (by decide)

theorem text_width_bound (env : Env)
    (hbb : ∀ t f a b c d, env.textbbox t f = .ok (a, b, c, d) →
      0 ≤ c - a ∧ c - a ≤ 172 ∧ 0 ≤ d - b ∧ d - b ≤ 69)
    (t : String) (f : Option Font) (w : Int)
    (h : text_width env t f = .ok w) : 0 ≤ w ∧ w ≤ 172 := by
  unfold text_width at h
  cases hb : env.textbbox t f with
  | error e => rw [hb] at h; simp [Except.map] at h
  | ok bb =>
    rw [hb] at h
    simp only [Except.map, Except.ok.injEq] at h
    rcases bb with ⟨a, b, c, d⟩
    obtain ⟨h1, h2, _, _⟩ := hbb t f a b c d hb
    rw [← h]
    exact ⟨h1, h2⟩

theorem text_height_bound (env : Env)
    (hbb : ∀ t f a b c d, env.textbbox t f = .ok (a, b, c, d) →
      0 ≤ c - a ∧ c - a ≤ 172 ∧ 0 ≤ d - b ∧ d - b ≤ 69)
    (t : String) (f : Option Font) (v : Int)
    (h : text_height env t f = .ok v) : 0 ≤ v ∧ v ≤ 69 := by
  unfold text_height at h
  cases hb : env.textbbox t f with
  | error e => rw [hb] at h; simp [Except.map] at h
  | ok bb =>
    rw [hb] at h
    simp only [Except.map, Except.ok.injEq] at h
    rcases bb with ⟨a, b, c, d⟩
    obtain ⟨_, _, h3, h4⟩ := hbb t f a b c d hb
    rw [← h]
    exact ⟨h3, h4⟩

theorem bounds_runLayoutFix0815 (env : Env) (x y : Int) (weather : WMap)
    (b : Bool) (evs : List Ev)
    (h : runLayoutFix0815 env x y 240 200 weather = (.ok b, evs)) :
    ∀ ev ∈ evs, inBoundsEv x y 240 200 ev = true := by
  replace h := h.symm
  unfold runLayoutFix0815 at h
  simp only [] at h
  repeat' split at h
  all_goals simp only [Prod.mk.injEq] at h
  all_goals first
    | exact Except.noConfusion h.1
    | (obtain ⟨hb, hevs⟩ := h
       subst hevs
       intro ev hev
       simp only [List.cons_append, List.nil_append, List.singleton_append,
         List.append_assoc] at hev
       fin_cases hev <;>
         (simp only [inBoundsEv, fdiv_two, Bool.and_eq_true, decide_eq_true_eq]
          omega))

theorem bounds_runLayoutFix0817 (env : Env) (x y : Int) (weather : WMap)
    (b : Bool) (evs : List Ev)
    (h : runLayoutFix0817 env x y 240 200 weather = (.ok b, evs)) :
    ∀ ev ∈ evs, inBoundsEv x y 240 200 ev = true := by
  replace h := h.symm
  unfold runLayoutFix0817 at h
  simp only [] at h
  repeat' split at h
  all_goals simp only [Prod.mk.injEq] at h
  all_goals first
    | exact Except.noConfusion h.1
    | (obtain ⟨hb, hevs⟩ := h
       subst hevs
       intro ev hev
       simp only [List.cons_append, List.nil_append, List.singleton_append,
         List.append_assoc] at hev
       fin_cases hev <;>
         (simp only [inBoundsEv, fdiv_two, Bool.and_eq_true, decide_eq_true_eq]
          omega))

theorem bounds_runTextBoundsFix (env : Env)
    (htb : ∀ t f u v, env.textBounds t f = .ok (u, v) → 0 ≤ u ∧ u ≤ 172)
    (x y : Int) (weather : WMap) (b : Bool) (evs : List Ev)
    (h : runTextBoundsFix env x y 240 200 weather = (.ok b, evs)) :
    ∀ ev ∈ evs, inBoundsEv x y 240 200 ev = true := by
  unfold runTextBoundsFix at h
  simp only [] at h
  cases hdesc : env.windDesc (safe_get_value weather "wind_speed" 0) with
  | error e => rw [hdesc] at h; simp at h
  | ok desc =>
  rw [hdesc] at h
  simp only [] at h
  cases hdi : env.windDirInfo (safe_get_value weather "wind_direction" 0) with
  | error e => rw [hdi] at h; simp at h
  | ok di =>
  rw [hdi] at h
  simp only [] at h
  cases hgi : env.systemIcon "strong-wind" (40, 40) with
  | error e => rw [hgi] at h; simp at h
  | ok gi =>
  rw [hgi] at h
  simp only [] at h
  cases htb1 : env.textBounds (msTextOf (safe_get_value weather "wind_speed" 0))
      (fontGet2 env "large_main" "medium_main") with
  | error e => rw [htb1] at h; simp at h
  | ok tb1 =>
  rw [htb1] at h
  simp only [] at h
  cases htb2 : env.textBounds desc (fontGet2 env "medium_main" "small_main") with
  | error e => rw [htb2] at h; simp at h
  | ok tb2 =>
  rw [htb2] at h
  simp only [] at h
  cases hci : env.windIcon di.2 (24, 24) with
  | error e => rw [hci] at h; simp at h
  | ok ci =>
  rw [hci] at h
  simp only [] at h
  cases htb3 : env.textBounds di.1 (fontGet2 env "small_main" "small_desc") with
  | error e => rw [htb3] at h; simp at h
  | ok tb3 =>
  rw [htb3] at h
  simp only [] at h
  rcases tb1 with ⟨u1, v1⟩
  rcases tb2 with ⟨u2, v2⟩
  rcases tb3 with ⟨u3, v3⟩
  obtain ⟨hu1a, hu1b⟩ := htb _ _ _ _ htb1
  obtain ⟨hu2a, hu2b⟩ := htb _ _ _ _ htb2
  obtain ⟨hu3a, hu3b⟩ := htb _ _ _ _ htb3
  rcases gi with _ | gic <;> rcases ci with _ | cic <;>
    (try simp only [] at h) <;>
    (simp only [Prod.mk.injEq, Except.ok.injEq] at h
     obtain ⟨hb, hevs⟩ := h
     subst hevs
     intro ev hev
     simp only [List.cons_append, List.nil_append, List.singleton_append,
       List.append_assoc] at hev
     fin_cases hev <;>
       (simp only [inBoundsEv, fdiv_two, Bool.and_eq_true, decide_eq_true_eq]
        try omega))

theorem drawDescLines_bounds (env : Env) (f : Option Font) (x y dx dy : Int)
    (hbb : ∀ t g a b c d, env.textbbox t g = .ok (a, b, c, d) →
      0 ≤ c - a ∧ c - a ≤ 172 ∧ 0 ≤ d - b ∧ d - b ≤ 69)
    (hdx1 : x ≤ dx) (hdx2 : dx ≤ x + 240)
    (hdy1 : y + 56 ≤ dy) (hdy2 : dy ≤ y + 125) :
    ∀ (ls : List String) (i : Nat) (u : Unit) (devs : List Ev),
      drawDescLines env f dx dy i ls = (.ok u, devs) →
      i + ls.length ≤ 2 →
      ∀ ev ∈ devs, inBoundsEv x y 240 200 ev = true := by
  intro ls
  induction ls with
  | nil =>
    intro i u devs h hlen ev hev
    unfold drawDescLines at h
    simp only [Prod.mk.injEq] at h
    rw [← h.2] at hev
    exact absurd hev (List.not_mem_nil ev)
  | cons line rest ih =>
    intro i u devs h hlen ev hev
    unfold drawDescLines at h
    cases hth : text_height env line f with
    | error e => rw [hth] at h; simp at h
    | ok th =>
    rw [hth] at h
    simp only [] at h
    rcases hrec : drawDescLines env f dx dy (i + 1) rest with ⟨r, evs'⟩
    rw [hrec] at h
    simp only [Prod.mk.injEq] at h
    obtain ⟨hr, hdevs⟩ := h
    subst hr
    obtain ⟨hta, htb2⟩ := text_height_bound env hbb line f th hth
    rw [← hdevs] at hev
    rcases List.mem_cons.mp hev with rfl | hmem
    · have hi : i = 0 ∨ i = 1 := by
        simp only [List.length_cons] at hlen
        omega
      rcases hi with rfl | rfl <;>
        (simp only [inBoundsEv, Bool.and_eq_true, decide_eq_true_eq,
           Nat.cast_zero, Nat.cast_one, zero_mul, one_mul, add_zero]
         omega)
    · refine ih (i + 1) u evs' hrec ?_ ev hmem
      simp only [List.length_cons] at hlen
      omega

theorem bounds_runCleanFinal (env : Env)
    (hbb : ∀ t f a b c d, env.textbbox t f = .ok (a, b, c, d) →
      0 ≤ c - a ∧ c - a ≤ 172 ∧ 0 ≤ d - b ∧ d - b ≤ 69)
    (x y : Int) (weather : WMap) (b : Bool) (evs : List Ev)
    (h : runCleanFinal env x y 240 200 weather = (.ok b, evs)) :
    ∀ ev ∈ evs, inBoundsEv x y 240 200 ev = true := by
  obtain ⟨hb, desc, di, bb, dls, u, devs, iconEvs, lw, lh, cursorEvs, cx,
    hdesc, hdi, hbbq, hwrap, hdd, hicon, hlw, hlh, hcur, hevs⟩ :=
    runCleanFinal_shape env x y 240 200 weather b evs h
  rcases bb with ⟨b1, b2, b3, b4⟩
  obtain ⟨_, _, hh1, hh2⟩ := hbb _ _ _ _ _ _ hbbq
  obtain ⟨hlw1, hlw2⟩ := text_width_bound env hbb _ _ _ hlw
  obtain ⟨hlh1, hlh2⟩ := text_height_bound env hbb _ _ _ hlh
  have hdls : dls.length ≤ 2 := by
    have h2 := (wrap2_ellips_len _ _ _ _ (by norm_num) dls hwrap).2
    simpa using h2
  have hdevs := drawDescLines_bounds env (fontGet2 env "small_main" "small_desc")
    x y (x + 20) (y + 20 + (b4 - b2) + 36) hbb (by omega) (by omega) (by omega) (by omega)
    dls 0 u devs hdd (by simpa using hdls)
  subst hevs
  intro ev hev
  simp only [List.mem_cons, List.mem_append, List.not_mem_nil, or_false] at hev
  rcases hev with rfl | rfl | ((hdv | hic) | hcu) | rfl
  · simp [inBoundsEv]
  · simp only [inBoundsEv, Bool.and_eq_true, decide_eq_true_eq]
    omega
  · exact hdevs ev hdv
  · rcases hicon with rfl | ⟨ic, icy, rfl, hicy⟩
    · exact absurd hic (List.not_mem_nil ev)
    · rcases List.mem_singleton.mp hic with rfl
      rcases hicy with rfl | rfl <;>
        (simp only [inBoundsEv, fdiv_two, Bool.and_eq_true, decide_eq_true_eq]
         omega)
  · rcases hcur with ⟨ic2, rfl, rfl⟩ | ⟨rfl, rfl⟩ <;>
      (rcases List.mem_singleton.mp hcu with rfl
       simp only [inBoundsEv, fdiv_two, Bool.and_eq_true, decide_eq_true_eq]
       omega)
  · rcases hcur with ⟨ic2, hcev, rfl⟩ | ⟨hcev, rfl⟩ <;>
      (simp only [inBoundsEv, fdiv_two, Bool.and_eq_true, decide_eq_true_eq]
       omega)

/-- C3 (corrected): for every version, at the documented module geometry
(240×200), if every measured text width is non-negative and at most the
maximum description width 172 and — as the amendment adds — every measured
text height is non-negative and at most 69, then every draw call produced
by a successful render body (each text anchor, each icon top-left corner,
and the frame rectangle) lies inside the module rectangle
[x, x+240] × [y, y+200]. -/
theorem placements_in_bounds (env : Env) (x y : Int) (weather : WMap)
    (hbb : ∀ t f a b c d, env.textbbox t f = .ok (a, b, c, d) →
      0 ≤ c - a ∧ c - a ≤ 172 ∧ 0 ≤ d - b ∧ d - b ≤ 69)
    (htb : ∀ t f u v, env.textBounds t f = .ok (u, v) → 0 ≤ u ∧ u ≤ 172) :
    (∀ b evs, runLayoutFix0815 env x y 240 200 weather = (.ok b, evs) →
      ∀ ev ∈ evs, inBoundsEv x y 240 200 ev = true) ∧
    (∀ b evs, runLayoutFix0817 env x y 240 200 weather = (.ok b, evs) →
      ∀ ev ∈ evs, inBoundsEv x y 240 200 ev = true) ∧
    (∀ b evs, runTextBoundsFix env x y 240 200 weather = (.ok b, evs) →
      ∀ ev ∈ evs, inBoundsEv x y 240 200 ev = true) ∧
    (∀ b evs, runCleanFinal env x y 240 200 weather = (.ok b, evs) →
      ∀ ev ∈ evs, inBoundsEv x y 240 200 ev = true) :=
  ⟨fun b evs h => bounds_runLayoutFix0815 env x y weather b evs h,
   fun b evs h => bounds_runLayoutFix0817 env x y weather b evs h,
   fun b evs h => bounds_runTextBoundsFix env htb x y weather b evs h,
   fun b evs h => bounds_runCleanFinal env hbb x y weather b evs h⟩

/-- C3 counterexample to the original claim: in `envHigh` every measured
text width is between 0 and 172 (so the claim's width hypothesis holds),
yet the clean-final version, whose layout also depends on measured text
heights, succeeds while emitting a description line anchored at y = 256,
outside the 240×200 module rectangle at (0, 0). -/
theorem placements_counterexample :
    (∀ t f a b c d, envHigh.textbbox t f = .ok (a, b, c, d) →
      0 ≤ c - a ∧ c - a ≤ 172) ∧
    (∀ t f u v, envHigh.textBounds t f = .ok (u, v) → 0 ≤ u ∧ u ≤ 172) ∧
    (runCleanFinal envHigh 0 0 240 200 mapNone).1 = .ok true ∧
    ∃ ev ∈ (runCleanFinal envHigh 0 0 240 200 mapNone).2,
      inBoundsEv 0 0 240 200 ev = false := by
  refine ⟨?_, ?_, rfl, ?_⟩
  · intro t f a b c d h
    simp only [envHigh, Except.ok.injEq, Prod.mk.injEq] at h
    omega
  · intro t f u v h
    simp only [envHigh, Except.ok.injEq, Prod.mk.injEq] at h
    omega
  · exact ⟨Ev.text 20 256 "Lugnt" none 0, by decide, by decide⟩

/-- Witness for C3: in `envW` all measured widths are 50 and all measured
heights are 20, the hypotheses of `placements_in_bounds` hold, and every
draw call of the clean-final run at (0, 0) is in bounds. -/
theorem placements_witness :
    ((runCleanFinal envW 0 0 240 200 mapNone).2.all
      (fun ev => inBoundsEv 0 0 240 200 ev)) = true := by
  have hbb : ∀ t f a b c d, envW.textbbox t f = .ok (a, b, c, d) →
      0 ≤ c - a ∧ c - a ≤ 172 ∧ 0 ≤ d - b ∧ d - b ≤ 69 := by
    intro t f a b c d h
    simp only [envW, Except.ok.injEq, Prod.mk.injEq] at h
    omega
  have htb : ∀ t f u v, envW.textBounds t f = .ok (u, v) → 0 ≤ u ∧ u ≤ 172 := by
    intro t f u v h
    simp only [envW, Except.ok.injEq, Prod.mk.injEq] at h
    omega
  have hrun : runCleanFinal envW 0 0 240 200 mapNone =
      (.ok true, (runCleanFinal envW 0 0 240 200 mapNone).2) := rfl
  have hall := (placements_in_bounds envW 0 0 mapNone hbb htb).2.2.2 true
    (runCleanFinal envW 0 0 240 200 mapNone).2 hrun
  exact List.all_eq_true.mpr hall
